import Mathlib

/-!
Verification of the field-gather engine of the fbpic repository.

The development embeds, as Lean functions, the code of
`fbpic/particles/gathering/threading_methods.py` (the linear and cubic
gather kernels, standard and envelope variants) and of
`fbpic/fields/interpolation_grid.py` (the interpolation-grid data model with
its `erase` and volume-division operations), and proves or refutes the
spec's claims about them.

Conventions of the embedding:
* Python floats are modelled as exact numbers: the shape-function and
  grid-construction layer is polymorphic in a linear ordered field (so that
  it can be evaluated on `ℚ`), the kernels themselves work over `ℝ` and `ℂ`.
* numpy arrays of complex numbers are modelled as total functions
  `ℤ → ℤ → ℂ` (grid arrays, indexed as `A iz ir`) or `ℕ → α` (particle
  arrays); the kernels are only applied at indices that the Python code
  would actually touch.
* In-place mutation is modelled by returning the updated state; a raised
  `ValueError` is modelled by an `Option String` component carrying the
  exception message.
-/

namespace Fbpic

/-! ### Shape functions (threading_methods.py, lines 104-153 and 464-479)

The weight/index computation that the four kernels perform inline, made
polymorphic so that it can be run on `ℚ` and used on `ℝ`. -/

/-- The result of the linear-order shape evaluation for one particle:
support indices and weights on both axes, plus the radial guard weight. -/
structure LinShape (K : Type) where
  ir_lower : ℤ
  ir_upper : ℤ
  iz_lower : ℤ
  iz_upper : ℤ
  Sr_lower : K
  Sr_upper : K
  Sr_guard : K
  Sz_lower : K
  Sz_upper : K
  deriving Repr, DecidableEq

variable {K : Type} [LinearOrderedField K] [FloorRing K]

/-- Cell coordinate `r_cell = invdr*(rj - rmin) - 0.5` (threading_methods.py
line 107; line 268, 464, 602 are identical). The longitudinal coordinate
`z_cell` is the same formula with `invdz, zmin`. -/
def cellCoord (invd rmin : K) (r : K) : K :=
  invd * (r - rmin) - 1/2

/-- Lines 109-120 of threading_methods.py: indices of the upper and lower
cell, the linear weights, and the guard weight initialised to zero, before
any boundary treatment. -/
def linShapeRaw (r_cell z_cell : K) : LinShape K :=
  let ir_lower : ℤ := ⌊r_cell⌋
  let ir_upper : ℤ := ir_lower + 1
  let iz_lower : ℤ := ⌊z_cell⌋
  let iz_upper : ℤ := iz_lower + 1
  { ir_lower := ir_lower
    ir_upper := ir_upper
    iz_lower := iz_lower
    iz_upper := iz_upper
    Sr_lower := (ir_upper : K) - r_cell
    Sr_upper := r_cell - (ir_lower : K)
    Sr_guard := 0
    Sz_lower := (iz_upper : K) - z_cell
    Sz_upper := z_cell - (iz_lower : K) }

/-- Lines 122-144 of threading_methods.py: boundary treatment.  Guard cells
in lower `r`, absorbing clamp in upper `r`, periodic wraparound by `±Nz`
in `z`.  The `if` chain follows the source order exactly (in particular the
`ir_lower > Nr-1` test sees the value already clamped to `0`). -/
def linBoundary (Nz Nr : ℤ) (s : LinShape K) : LinShape K :=
  -- guard cells in lower r
  let Sr_guard := if s.ir_lower < 0 then s.Sr_lower else s.Sr_guard
  let Sr_lower := if s.ir_lower < 0 then 0 else s.Sr_lower
  let ir_lower := if s.ir_lower < 0 then 0 else s.ir_lower
  -- absorbing in upper r
  let ir_lower := if ir_lower > Nr - 1 then Nr - 1 else ir_lower
  let ir_upper := if s.ir_upper > Nr - 1 then Nr - 1 else s.ir_upper
  -- periodic boundaries in z
  let iz_lower := if s.iz_lower < 0 then s.iz_lower + Nz else s.iz_lower
  let iz_upper := if s.iz_upper < 0 then s.iz_upper + Nz else s.iz_upper
  let iz_lower := if iz_lower > Nz - 1 then iz_lower - Nz else iz_lower
  let iz_upper := if iz_upper > Nz - 1 then iz_upper - Nz else iz_upper
  { s with
    ir_lower := ir_lower, ir_upper := ir_upper
    iz_lower := iz_lower, iz_upper := iz_upper
    Sr_lower := Sr_lower, Sr_guard := Sr_guard }

/-- The full linear shape evaluation as each linear-order kernel performs it:
cell coordinates, raw weights, then boundary treatment. -/
def linShape (invdz zmin : K) (Nz : ℤ) (invdr rmin : K) (Nr : ℤ)
    (r z : K) : LinShape K :=
  linBoundary Nz Nr (linShapeRaw (cellCoord invdr rmin r) (cellCoord invdz zmin z))

/-- Lines 470-473 (and 476-479, 608-611, 614-617) of threading_methods.py:
the four cubic-order shape coefficients as a function of the local offset. -/
def cubicW (u : K) : Fin 4 → K :=
  ![ -1/6 * (u-2)^3,
     1/6 * (3*(u-1)^3 - 6*(u-1)^2 + 4),
     1/6 * (3*(2-u)^3 - 6*(2-u)^2 + 4),
     -1/6 * (1-u)^3 ]

/-- Line 468 (and 474, 606, 612): lowest support index of the cubic stencil. -/
def cubicLowest (cell : K) : ℤ :=
  ⌊cell⌋ - 1

/-- Line 469 (and 475, 607, 613): local offset of the particle from the
lowest support point, `u = cell - i_lowest`. -/
def cubicLocal (cell : K) : K :=
  cell - (cubicLowest cell : K)

/-! ### Interpolation grids (interpolation_grid.py)

The scalar part of the constructor is embedded over `ℚ` so that its
success/failure behaviour is decidable; the cell-volume geometry, which
involves `π`, is embedded over `ℝ`. -/

/-- Scalar metadata registered by `InterpolationGrid.__init__`
(interpolation_grid.py lines 51-67). -/
structure InterpolationGrid where
  Nz : ℤ
  Nr : ℤ
  m : ℤ
  dr : ℚ
  dz : ℚ
  invdr : ℚ
  invdz : ℚ
  rmin : ℚ
  rmax : ℚ
  zmin : ℚ
  zmax : ℚ
  deriving Repr, DecidableEq

/-- `InterpolationGrid.__init__` (interpolation_grid.py lines 29-72).  A
Python `ZeroDivisionError` is modelled as `Except.error`; the divisions
happen in source order (`dr = rmax/Nr`, `dz = (zmax-zmin)/Nz`,
`invdr = 1./dr`, `invdz = 1./dz`) and each raises exactly when its divisor
is zero.  The constructor performs no other validation of its arguments. -/
def InterpolationGrid.init (Nz Nr m : ℤ) (zmin zmax rmax : ℚ) :
    Except String InterpolationGrid :=
  if _ : Nr = 0 then .error "ZeroDivisionError: division by zero"
  else
    let dr : ℚ := rmax / (Nr : ℚ)
    if _ : Nz = 0 then .error "ZeroDivisionError: division by zero"
    else
      let dz : ℚ := (zmax - zmin) / (Nz : ℚ)
      if _ : dr = 0 then .error "ZeroDivisionError: float division by zero"
      else if _ : dz = 0 then .error "ZeroDivisionError: float division by zero"
      else .ok { Nz := Nz, Nr := Nr, m := m, dr := dr, dz := dz,
                 invdr := 1/dr, invdz := 1/dz,
                 rmin := 0, rmax := rmax, zmin := zmin, zmax := zmax }

/-- Whether a modelled constructor call completed without raising. -/
def initOk (e : Except String InterpolationGrid) : Bool :=
  match e with
  | .ok _ => true
  | .error _ => false

/-! Real-valued grid geometry, as `__init__` (lines 69-72) and the `z`/`r`
properties (lines 84 and 89) compute it. -/

noncomputable section

namespace Geom

/-- `dz = (zmax-zmin)/Nz` (line 58). -/
def dz (Nz : ℕ) (zmin zmax : ℝ) : ℝ := (zmax - zmin) / Nz

/-- `dr = rmax/Nr` (line 57). -/
def dr (Nr : ℕ) (rmax : ℝ) : ℝ := rmax / Nr

/-- The cell-centered longitudinal coordinates `zmin + (0.5+arange(Nz))*dz`
(line 84). -/
def zc (Nz : ℕ) (zmin zmax : ℝ) (i : ℕ) : ℝ :=
  zmin + (0.5 + (i : ℝ)) * dz Nz zmin zmax

/-- The cell-centered radial coordinates `rmin + (0.5+arange(Nr))*dr` with
`rmin = 0` (lines 64, 69, 89). -/
def rc (Nr : ℕ) (rmax : ℝ) (j : ℕ) : ℝ :=
  (0.5 + (j : ℝ)) * dr Nr rmax

/-- The shell volume `vol = pi*dz*((r+0.5*dr)**2 - (r-0.5*dr)**2)`
(line 70). -/
def vol (Nz Nr : ℕ) (zmin zmax rmax : ℝ) (j : ℕ) : ℝ :=
  Real.pi * dz Nz zmin zmax *
    ((rc Nr rmax j + 0.5 * dr Nr rmax) ^ 2
      - (rc Nr rmax j - 0.5 * dr Nr rmax) ^ 2)

/-- `invvol = 1./vol` (line 72). -/
def invvol (Nz Nr : ℕ) (zmin zmax rmax : ℝ) (j : ℕ) : ℝ :=
  1 / vol Nz Nr zmin zmax rmax j

end Geom

/-- The state of a `FieldInterpolationGrid` (interpolation_grid.py lines
95-126): the metadata of the base class plus the ten complex field arrays,
modelled as total functions `iz ↦ ir ↦ value`. -/
structure FieldInterpolationGrid where
  Nz : ℕ
  Nr : ℕ
  m : ℤ
  zmin : ℝ
  zmax : ℝ
  rmax : ℝ
  dz : ℝ
  dr : ℝ
  invvol : ℤ → ℝ
  Er : ℤ → ℤ → ℂ
  Et : ℤ → ℤ → ℂ
  Ez : ℤ → ℤ → ℂ
  Br : ℤ → ℤ → ℂ
  Bt : ℤ → ℤ → ℂ
  Bz : ℤ → ℤ → ℂ
  Jr : ℤ → ℤ → ℂ
  Jt : ℤ → ℤ → ℂ
  Jz : ℤ → ℤ → ℂ
  rho : ℤ → ℤ → ℂ

/-- `FieldInterpolationGrid.erase` (lines 163-208, CPU branch).  In-place
mutation is modelled by returning the updated grid; the `ValueError` raised
on an unrecognized name is the `Option String` component, in which case the
grid is returned unmodified (the Python method raises before mutating
anything). -/
def FieldInterpolationGrid.erase (g : FieldInterpolationGrid)
    (fieldtype : String) : FieldInterpolationGrid × Option String :=
  if fieldtype = "rho" then
    ({ g with rho := fun _ _ => 0 }, none)
  else if fieldtype = "J" then
    ({ g with Jr := fun _ _ => 0, Jt := fun _ _ => 0, Jz := fun _ _ => 0 },
      none)
  else if fieldtype = "E" then
    ({ g with Er := fun _ _ => 0, Et := fun _ _ => 0, Ez := fun _ _ => 0 },
      none)
  else if fieldtype = "B" then
    ({ g with Br := fun _ _ => 0, Bt := fun _ _ => 0, Bz := fun _ _ => 0 },
      none)
  else
    (g, some ("Invalid string for fieldtype: " ++ fieldtype))

/-- `FieldInterpolationGrid.divide_by_volume` (lines 210-245, CPU branch):
multiplies the named group by `invvol`, broadcast along the radial axis.
Only `'rho'` and `'J'` are recognized. -/
def FieldInterpolationGrid.divide_by_volume (g : FieldInterpolationGrid)
    (fieldtype : String) : FieldInterpolationGrid × Option String :=
  if fieldtype = "rho" then
    ({ g with rho := fun iz ir => g.rho iz ir * (g.invvol ir : ℂ) }, none)
  else if fieldtype = "J" then
    ({ g with
        Jr := fun iz ir => g.Jr iz ir * (g.invvol ir : ℂ)
        Jt := fun iz ir => g.Jt iz ir * (g.invvol ir : ℂ)
        Jz := fun iz ir => g.Jz iz ir * (g.invvol ir : ℂ) }, none)
  else
    (g, some ("Invalid string for fieldtype: " ++ fieldtype))

/-- `scipy.constants.epsilon_0`, the vacuum permittivity (CODATA 2018). -/
def epsilon_0 : ℝ := 8.8541878128e-12

/-- The state of an `EnvelopeInterpolationGrid` (lines 249-276): the base
metadata plus the seven complex envelope arrays. -/
structure EnvelopeInterpolationGrid where
  Nz : ℕ
  Nr : ℕ
  m : ℤ
  zmin : ℝ
  zmax : ℝ
  rmax : ℝ
  dz : ℝ
  dr : ℝ
  invvol : ℤ → ℝ
  a : ℤ → ℤ → ℂ
  dta : ℤ → ℤ → ℂ
  grad_a_r : ℤ → ℤ → ℂ
  grad_a_t : ℤ → ℤ → ℂ
  grad_a_z : ℤ → ℤ → ℂ
  chi : ℤ → ℤ → ℂ
  chi_a : ℤ → ℤ → ℂ

/-- `EnvelopeInterpolationGrid.erase` (lines 308-335, CPU branch): only
`'chi'` and `'chi_a'` are recognized. -/
def EnvelopeInterpolationGrid.erase (g : EnvelopeInterpolationGrid)
    (fieldtype : String) : EnvelopeInterpolationGrid × Option String :=
  if fieldtype = "chi" then
    ({ g with chi := fun _ _ => 0 }, none)
  else if fieldtype = "chi_a" then
    ({ g with chi_a := fun _ _ => 0 }, none)
  else
    (g, some ("Invalid string for fieldtype: " ++ fieldtype))

/-- `EnvelopeInterpolationGrid.divide_by_volume_and_e0` (lines 337-364, CPU
branch): multiplies `chi` by `invvol/epsilon_0`, broadcast along the radial
axis; only `'chi'` is recognized. -/
def EnvelopeInterpolationGrid.divide_by_volume_and_e0
    (g : EnvelopeInterpolationGrid) (fieldtype : String) :
    EnvelopeInterpolationGrid × Option String :=
  if fieldtype = "chi" then
    ({ g with
        chi := fun iz ir => g.chi iz ir * ((g.invvol ir / epsilon_0 : ℝ) : ℂ) },
      none)
  else
    (g, some ("Invalid string for fieldtype: " ++ fieldtype))

/-! ### Field gathering kernels (threading_methods.py)

The per-mode accumulation helpers that the kernels call are imported from
`fbpic/particles/gathering/inline_functions.py`, a file of this repository
that is not under `src/`; those helpers are modelled from the spec below
and are marked as such. -/

/-- `rj = sqrt(xj**2 + yj**2)` (threading_methods.py line 93; identical at
lines 256, 450, 590). -/
def cylR (x y : ℝ) : ℝ := Real.sqrt (x ^ 2 + y ^ 2)

/-- Cosine of the particle angle (lines 94-100): `x/r` when `r != 0`, and
`1` at `r = 0`. -/
def cylCos (x y : ℝ) : ℝ := if cylR x y = 0 then 1 else x / cylR x y

/-- Sine of the particle angle (lines 94-100): `y/r` when `r != 0`, and
`0` at `r = 0`. -/
def cylSin (x y : ℝ) : ℝ := if cylR x y = 0 then 0 else y / cylR x y

/-- The azimuthal phase of mode 1, `exptheta_m1 = cos - 1j*sin` (lines 102,
459); the phase of mode `m` is its `m`-th power (lines 328, 633). -/
def exptheta (x y : ℝ) : ℂ := (cylCos x y : ℂ) - Complex.I * (cylSin x y : ℂ)

/-- The all-zero grid array, the default when a mode has no stored array. -/
def zeroArr : ℤ → ℤ → ℂ := fun _ _ => 0

/-- Modelled from the spec: the 6-point weighted sample of one grid array
that `add_linear_gather_for_mode` (inline_functions.py, not part of this
repository) accumulates.  Following §4.3 step 4 and §4.2: the complex array
is sampled at the four support points with the combined shape weights and at
the two radial guard points (radial index clamped to 0), each sample
multiplied by the phase factor; §9 records that the gather kernel computes
the guard weight without itself applying a parity fold-back, so no
mode-dependent sign is applied. -/
def lin_gather_sum (A : ℤ → ℤ → ℂ) (exptheta_m : ℂ)
    (iz_lower iz_upper ir_lower ir_upper : ℤ)
    (S_ll S_lu S_lg S_ul S_uu S_ug : ℝ) : ℂ :=
  (S_ll : ℂ) * (A iz_lower ir_lower * exptheta_m)
    + (S_lu : ℂ) * (A iz_lower ir_upper * exptheta_m)
    + (S_lg : ℂ) * (A iz_lower 0 * exptheta_m)
    + (S_ul : ℂ) * (A iz_upper ir_lower * exptheta_m)
    + (S_uu : ℂ) * (A iz_upper ir_upper * exptheta_m)
    + (S_ug : ℂ) * (A iz_upper 0 * exptheta_m)

/-- Modelled from the spec: `add_linear_gather_for_mode` of
inline_functions.py (not part of this repository), as called at
threading_methods.py lines 160-168 and 183-191: accumulates the weighted,
phase-rotated samples of the mode's three arrays into the complex sums
`(Fr, Ft, Fz)`.  The mode index `m` only selects the phase, which the caller
passes in. -/
def add_linear_gather_for_mode (_m : ℕ) (Fr Ft Fz : ℂ) (exptheta_m : ℂ)
    (Er Et Ez : ℤ → ℤ → ℂ) (iz_lower iz_upper ir_lower ir_upper : ℤ)
    (S_ll S_lu S_lg S_ul S_uu S_ug : ℝ) : ℂ × ℂ × ℂ :=
  ( Fr + lin_gather_sum Er exptheta_m iz_lower iz_upper ir_lower ir_upper
      S_ll S_lu S_lg S_ul S_uu S_ug,
    Ft + lin_gather_sum Et exptheta_m iz_lower iz_upper ir_lower ir_upper
      S_ll S_lu S_lg S_ul S_uu S_ug,
    Fz + lin_gather_sum Ez exptheta_m iz_lower iz_upper ir_lower ir_upper
      S_ll S_lu S_lg S_ul S_uu S_ug )

/-- Modelled from the spec (§4.2): longitudinal boundary of the cubic
stencil, periodic wraparound by `±Nz` (at most one wrap). -/
def zWrap (Nz : ℤ) (iz : ℤ) : ℤ :=
  if iz < 0 then iz + Nz else if iz > Nz - 1 then iz - Nz else iz

/-- Modelled from the spec (§4.2): radial boundary of the cubic stencil,
index below 0 clamped to 0, index above `Nr-1` clamped to `Nr-1`
(absorbing, no wraparound; the guard bucket exists at linear order only). -/
def rClamp (Nr : ℤ) (ir : ℤ) : ℤ :=
  if ir < 0 then 0 else if ir > Nr - 1 then Nr - 1 else ir

/-- Modelled from the spec: the 16-point weighted sample of one grid array
that `add_cubic_gather_for_mode` (inline_functions.py, not part of this
repository) accumulates: the cubic stencil covers the 4x4 support points
starting at `(iz_lowest, ir_lowest)`, with boundary treatment per §4.2. -/
def cubic_gather_sum (A : ℤ → ℤ → ℂ) (exptheta_m : ℂ)
    (ir_lowest iz_lowest : ℤ) (Sr Sz : Fin 4 → ℝ) (Nr Nz : ℤ) : ℂ :=
  ∑ k : Fin 4, ∑ j : Fin 4,
    ((Sz k * Sr j : ℝ) : ℂ) *
      (A (zWrap Nz (iz_lowest + (k : ℕ))) (rClamp Nr (ir_lowest + (j : ℕ)))
        * exptheta_m)

/-- Modelled from the spec: `add_cubic_gather_for_mode` of
inline_functions.py (not part of this repository), as called at
threading_methods.py lines 487-493 and 508-514. -/
def add_cubic_gather_for_mode (_m : ℕ) (Fr Ft Fz : ℂ) (exptheta_m : ℂ)
    (Er Et Ez : ℤ → ℤ → ℂ) (ir_lowest iz_lowest : ℤ) (Sr Sz : Fin 4 → ℝ)
    (Nr Nz : ℤ) : ℂ × ℂ × ℂ :=
  ( Fr + cubic_gather_sum Er exptheta_m ir_lowest iz_lowest Sr Sz Nr Nz,
    Ft + cubic_gather_sum Et exptheta_m ir_lowest iz_lowest Sr Sz Nr Nz,
    Fz + cubic_gather_sum Ez exptheta_m ir_lowest iz_lowest Sr Sz Nr Nz )

/-- The per-particle body of `gather_field_numba_linear` (threading_methods
lines 84-196): cylindrical conversion, linear shape with boundary
treatment, accumulation of modes 0 and 1 for E and B, rotation to Cartesian
coordinates and real part.  Returns `(Ex, Ey, Ez, Bx, By, Bz)` for this
particle. -/
def gather_field_linear_body
    (invdz zmin : ℝ) (Nz : ℤ) (invdr rmin : ℝ) (Nr : ℤ)
    (Er_m0 Et_m0 Ez_m0 Er_m1 Et_m1 Ez_m1 : ℤ → ℤ → ℂ)
    (Br_m0 Bt_m0 Bz_m0 Br_m1 Bt_m1 Bz_m1 : ℤ → ℤ → ℂ)
    (xj yj zj : ℝ) : ℝ × ℝ × ℝ × ℝ × ℝ × ℝ :=
  let cos := cylCos xj yj
  let sin := cylSin xj yj
  let exptheta_m0 : ℂ := 1
  let exptheta_m1 : ℂ := exptheta xj yj
  let s := linShape invdz zmin Nz invdr rmin Nr (cylR xj yj) zj
  let S_ll := s.Sz_lower * s.Sr_lower
  let S_lu := s.Sz_lower * s.Sr_upper
  let S_ul := s.Sz_upper * s.Sr_lower
  let S_uu := s.Sz_upper * s.Sr_upper
  let S_lg := s.Sz_lower * s.Sr_guard
  let S_ug := s.Sz_upper * s.Sr_guard
  let FE0 := add_linear_gather_for_mode 0 0 0 0 exptheta_m0 Er_m0 Et_m0 Ez_m0
    s.iz_lower s.iz_upper s.ir_lower s.ir_upper S_ll S_lu S_lg S_ul S_uu S_ug
  let FE := add_linear_gather_for_mode 1 FE0.1 FE0.2.1 FE0.2.2 exptheta_m1
    Er_m1 Et_m1 Ez_m1
    s.iz_lower s.iz_upper s.ir_lower s.ir_upper S_ll S_lu S_lg S_ul S_uu S_ug
  let FB0 := add_linear_gather_for_mode 0 0 0 0 exptheta_m0 Br_m0 Bt_m0 Bz_m0
    s.iz_lower s.iz_upper s.ir_lower s.ir_upper S_ll S_lu S_lg S_ul S_uu S_ug
  let FB := add_linear_gather_for_mode 1 FB0.1 FB0.2.1 FB0.2.2 exptheta_m1
    Br_m1 Bt_m1 Bz_m1
    s.iz_lower s.iz_upper s.ir_lower s.ir_upper S_ll S_lu S_lg S_ul S_uu S_ug
  ( ((cos : ℂ) * FE.1 - (sin : ℂ) * FE.2.1).re,
    ((sin : ℂ) * FE.1 + (cos : ℂ) * FE.2.1).re,
    FE.2.2.re,
    ((cos : ℂ) * FB.1 - (sin : ℂ) * FB.2.1).re,
    ((sin : ℂ) * FB.1 + (cos : ℂ) * FB.2.1).re,
    FB.2.2.re )

/-- The per-particle body of `gather_field_numba_cubic` (lines 442-519):
like the linear body but with the 4x4 cubic stencil. -/
def gather_field_cubic_body
    (invdz zmin : ℝ) (Nz : ℤ) (invdr rmin : ℝ) (Nr : ℤ)
    (Er_m0 Et_m0 Ez_m0 Er_m1 Et_m1 Ez_m1 : ℤ → ℤ → ℂ)
    (Br_m0 Bt_m0 Bz_m0 Br_m1 Bt_m1 Bz_m1 : ℤ → ℤ → ℂ)
    (xj yj zj : ℝ) : ℝ × ℝ × ℝ × ℝ × ℝ × ℝ :=
  let cos := cylCos xj yj
  let sin := cylSin xj yj
  let exptheta_m0 : ℂ := 1
  let exptheta_m1 : ℂ := exptheta xj yj
  let r_cell := cellCoord invdr rmin (cylR xj yj)
  let z_cell := cellCoord invdz zmin zj
  let ir_lowest := cubicLowest r_cell
  let Sr := cubicW (cubicLocal r_cell)
  let iz_lowest := cubicLowest z_cell
  let Sz := cubicW (cubicLocal z_cell)
  let FE0 := add_cubic_gather_for_mode 0 0 0 0 exptheta_m0 Er_m0 Et_m0 Ez_m0
    ir_lowest iz_lowest Sr Sz Nr Nz
  let FE := add_cubic_gather_for_mode 1 FE0.1 FE0.2.1 FE0.2.2 exptheta_m1
    Er_m1 Et_m1 Ez_m1 ir_lowest iz_lowest Sr Sz Nr Nz
  let FB0 := add_cubic_gather_for_mode 0 0 0 0 exptheta_m0 Br_m0 Bt_m0 Bz_m0
    ir_lowest iz_lowest Sr Sz Nr Nz
  let FB := add_cubic_gather_for_mode 1 FB0.1 FB0.2.1 FB0.2.2 exptheta_m1
    Br_m1 Bt_m1 Bz_m1 ir_lowest iz_lowest Sr Sz Nr Nz
  ( ((cos : ℂ) * FE.1 - (sin : ℂ) * FE.2.1).re,
    ((sin : ℂ) * FE.1 + (cos : ℂ) * FE.2.1).re,
    FE.2.2.re,
    ((cos : ℂ) * FB.1 - (sin : ℂ) * FB.2.1).re,
    ((sin : ℂ) * FB.1 + (cos : ℂ) * FB.2.1).re,
    FB.2.2.re )

/-! ### Array-level kernels and the chunked dispatch

`gather_field_numba_linear` runs a parallel loop over the particles; each
iteration reads only the grid arrays and the positions of its own particle
and writes only the six output slots of that same index, so the loop is the
pointwise map below.  `gather_field_numba_cubic` partitions the particle
range into `nthreads` chunks given by `ptcl_chunk_indices` and each worker
writes its chunk sequentially; this is modelled as a fold of sequential
writes, so that independence from the partition is a theorem rather than an
assumption. -/

/-- `gather_field_numba_linear` (lines 31-198) at the array level: every
index `i < N` receives the value of the per-particle body at its own
position; all other slots keep their previous contents.  The six output
arrays are bundled as one array of 6-tuples. -/
def gather_field_numba_linear
    (invdz zmin : ℝ) (Nz : ℤ) (invdr rmin : ℝ) (Nr : ℤ)
    (Er_m0 Et_m0 Ez_m0 Er_m1 Et_m1 Ez_m1 : ℤ → ℤ → ℂ)
    (Br_m0 Bt_m0 Bz_m0 Br_m1 Bt_m1 Bz_m1 : ℤ → ℤ → ℂ)
    (x y z : ℕ → ℝ) (N : ℕ)
    (out : ℕ → ℝ × ℝ × ℝ × ℝ × ℝ × ℝ) : ℕ → ℝ × ℝ × ℝ × ℝ × ℝ × ℝ :=
  fun i =>
    if i < N then
      gather_field_linear_body invdz zmin Nz invdr rmin Nr
        Er_m0 Et_m0 Ez_m0 Er_m1 Et_m1 Ez_m1
        Br_m0 Bt_m0 Bz_m0 Br_m1 Bt_m1 Bz_m1 (x i) (y i) (z i)
    else out i

/-- One worker's sequential loop: write `body` into the `n` slots
`start, start+1, ..., start+n-1` of `out`, in order. -/
def chunkWrite {α : Type} (body : ℕ → α) (out : ℕ → α) (start : ℕ) :
    ℕ → (ℕ → α)
  | 0 => out
  | n + 1 => Function.update (chunkWrite body out start n) (start + n)
      (body (start + n))

/-- The chunked dispatch of the cubic kernels (`for nt in prange(nthreads):
for i in range(ptcl_chunk_indices[nt], ptcl_chunk_indices[nt+1])`, lines
431-440): worker `nt` writes the slots of `[c nt, c (nt+1))`. -/
def runChunks {α : Type} (body : ℕ → α) (c : ℕ → ℕ) (nthreads : ℕ)
    (out : ℕ → α) : ℕ → α :=
  (List.range nthreads).foldl
    (fun o nt => chunkWrite body o (c nt) (c (nt + 1) - c nt)) out

/-- `gather_field_numba_cubic` (lines 370-521) at the array level: the
per-particle cubic body dispatched over the chunk partition
`ptcl_chunk_indices`. -/
def gather_field_numba_cubic
    (invdz zmin : ℝ) (Nz : ℤ) (invdr rmin : ℝ) (Nr : ℤ)
    (Er_m0 Et_m0 Ez_m0 Er_m1 Et_m1 Ez_m1 : ℤ → ℤ → ℂ)
    (Br_m0 Bt_m0 Bz_m0 Br_m1 Bt_m1 Bz_m1 : ℤ → ℤ → ℂ)
    (x y z : ℕ → ℝ) (nthreads : ℕ) (ptcl_chunk_indices : ℕ → ℕ)
    (out : ℕ → ℝ × ℝ × ℝ × ℝ × ℝ × ℝ) : ℕ → ℝ × ℝ × ℝ × ℝ × ℝ × ℝ :=
  runChunks
    (fun i => gather_field_cubic_body invdz zmin Nz invdr rmin Nr
      Er_m0 Et_m0 Ez_m0 Er_m1 Et_m1 Ez_m1
      Br_m0 Bt_m0 Bz_m0 Br_m1 Bt_m1 Bz_m1 (x i) (y i) (z i))
    ptcl_chunk_indices nthreads out

/-! ### Envelope gathering (threading_methods.py lines 200-362 and 524-666) -/

/-- Modelled from the spec: `add_linear_envelope_gather_for_mode` of
inline_functions.py (not part of this repository), as called at lines
330-334: like `add_linear_gather_for_mode` but accumulating the five
complex sums `(F, Fr, Ft, Fz, dtF)` from the arrays
`(a, grad_a_r, grad_a_t, grad_a_z, dta)` of one mode. -/
def add_linear_envelope_gather_for_mode (_m : ℕ) (F Fr Ft Fz dtF : ℂ)
    (exptheta_m : ℂ) (a grad_a_r grad_a_t grad_a_z dta : ℤ → ℤ → ℂ)
    (iz_lower iz_upper ir_lower ir_upper : ℤ)
    (S_ll S_lu S_lg S_ul S_uu S_ug : ℝ) : ℂ × ℂ × ℂ × ℂ × ℂ :=
  ( F + lin_gather_sum a exptheta_m iz_lower iz_upper ir_lower ir_upper
      S_ll S_lu S_lg S_ul S_uu S_ug,
    Fr + lin_gather_sum grad_a_r exptheta_m iz_lower iz_upper ir_lower
      ir_upper S_ll S_lu S_lg S_ul S_uu S_ug,
    Ft + lin_gather_sum grad_a_t exptheta_m iz_lower iz_upper ir_lower
      ir_upper S_ll S_lu S_lg S_ul S_uu S_ug,
    Fz + lin_gather_sum grad_a_z exptheta_m iz_lower iz_upper ir_lower
      ir_upper S_ll S_lu S_lg S_ul S_uu S_ug,
    dtF + lin_gather_sum dta exptheta_m iz_lower iz_upper ir_lower ir_upper
      S_ll S_lu S_lg S_ul S_uu S_ug )

/-- Modelled from the spec: `add_cubic_envelope_gather_for_mode` of
inline_functions.py (not part of this repository), as called at lines
634-637. -/
def add_cubic_envelope_gather_for_mode (_m : ℕ) (F Fr Ft Fz dtF : ℂ)
    (exptheta_m : ℂ) (a grad_a_r grad_a_t grad_a_z dta : ℤ → ℤ → ℂ)
    (ir_lowest iz_lowest : ℤ) (Sr Sz : Fin 4 → ℝ) (Nr Nz : ℤ) :
    ℂ × ℂ × ℂ × ℂ × ℂ :=
  ( F + cubic_gather_sum a exptheta_m ir_lowest iz_lowest Sr Sz Nr Nz,
    Fr + cubic_gather_sum grad_a_r exptheta_m ir_lowest iz_lowest Sr Sz Nr Nz,
    Ft + cubic_gather_sum grad_a_t exptheta_m ir_lowest iz_lowest Sr Sz Nr Nz,
    Fz + cubic_gather_sum grad_a_z exptheta_m ir_lowest iz_lowest Sr Sz Nr Nz,
    dtF + cubic_gather_sum dta exptheta_m ir_lowest iz_lowest Sr Sz Nr Nz )

/-- Lines 336-362 (identical at lines 639-665): the post-accumulation
processing of both envelope kernels for one particle.  Rotation of the
gradient to Cartesian, half-step amplitude `dtF = 0.5*dt*dtF + F`,
conversion to `grad_a^2` and `a^2`, and the write governed by `averaging`.
`prev` holds `(a2[i], grad_a2_x[i], grad_a2_y[i], grad_a2_z[i],
a2_delayed[i])` before the write; the result is their values after it.
Note that in the `averaging` branch the source blends `a2_delayed[i]` with
`F` (the plain intensity) and leaves the computed `dtF` unused. -/
def envelope_write (F Fr Ft Fz dtF : ℂ) (cos sin dt : ℝ)
    (prev : ℝ × ℝ × ℝ × ℝ × ℝ) (averaging : Bool) : ℝ × ℝ × ℝ × ℝ × ℝ :=
  let Fx : ℂ := (cos : ℂ) * Fr - (sin : ℂ) * Ft
  let Fy : ℂ := (sin : ℂ) * Fr + (cos : ℂ) * Ft
  let dtF2 : ℂ := (0.5 : ℂ) * (dt : ℂ) * dtF + F
  let Fx2 : ℝ := 2 * (Fx * star F).re
  let Fy2 : ℝ := 2 * (Fy * star F).re
  let Fz2 : ℝ := 2 * (Fz * star F).re
  let F2 : ℂ := F * star F
  let dtF3 : ℂ := dtF2 * star dtF2
  if averaging then
    ( ((0.5 : ℂ) * ((prev.1 : ℂ) + F2)).re,
      0.5 * (prev.2.1 + Fx2),
      0.5 * (prev.2.2.1 + Fy2),
      0.5 * (prev.2.2.2.1 + Fz2),
      ((0.5 : ℂ) * ((prev.2.2.2.2 : ℂ) + F2)).re )
  else
    ( F2.re, Fx2, Fy2, Fz2, dtF3.re )

/-- The per-particle body of `gather_envelope_field_numba_linear` (lines
200-362).  The mode loop is `for it in range(len(m_tuple))` (line 321) and
reads `m_tuple[it]` together with the grid arrays stored at the same tuple
position `it` (lines 322-327). -/
def gather_envelope_field_linear_body
    (invdz zmin : ℝ) (Nz : ℤ) (invdr rmin : ℝ) (Nr : ℤ) (dt : ℝ)
    (a_tuple grad_a_r_tuple grad_a_t_tuple grad_a_z_tuple dta_tuple :
      List (ℤ → ℤ → ℂ))
    (m_tuple : List ℕ) (xj yj zj : ℝ)
    (prev : ℝ × ℝ × ℝ × ℝ × ℝ) (averaging : Bool) : ℝ × ℝ × ℝ × ℝ × ℝ :=
  let cos := cylCos xj yj
  let sin := cylSin xj yj
  let s := linShape invdz zmin Nz invdr rmin Nr (cylR xj yj) zj
  let S_ll := s.Sz_lower * s.Sr_lower
  let S_lu := s.Sz_lower * s.Sr_upper
  let S_ul := s.Sz_upper * s.Sr_lower
  let S_uu := s.Sz_upper * s.Sr_upper
  let S_lg := s.Sz_lower * s.Sr_guard
  let S_ug := s.Sz_upper * s.Sr_guard
  let acc := (List.range m_tuple.length).foldl
    (fun (acc : ℂ × ℂ × ℂ × ℂ × ℂ) it =>
      let m := m_tuple.getD it 0
      let exptheta_m := (exptheta xj yj) ^ m
      add_linear_envelope_gather_for_mode m
        acc.1 acc.2.1 acc.2.2.1 acc.2.2.2.1 acc.2.2.2.2 exptheta_m
        (a_tuple.getD it zeroArr) (grad_a_r_tuple.getD it zeroArr)
        (grad_a_t_tuple.getD it zeroArr) (grad_a_z_tuple.getD it zeroArr)
        (dta_tuple.getD it zeroArr)
        s.iz_lower s.iz_upper s.ir_lower s.ir_upper
        S_ll S_lu S_lg S_ul S_uu S_ug)
    (0, 0, 0, 0, 0)
  envelope_write acc.1 acc.2.1 acc.2.2.1 acc.2.2.2.1 acc.2.2.2.2
    cos sin dt prev averaging

/-- The per-particle body of `gather_envelope_field_numba_cubic` (lines
524-666).  The mode loop is `for m in m_tuple` (line 626) and reads the
grid arrays at tuple position `m` — the mode value itself (`a_m =
a_tuple[m]`, lines 628-632) — not at the loop position. -/
def gather_envelope_field_cubic_body
    (invdz zmin : ℝ) (Nz : ℤ) (invdr rmin : ℝ) (Nr : ℤ) (dt : ℝ)
    (a_tuple grad_a_r_tuple grad_a_t_tuple grad_a_z_tuple dta_tuple :
      List (ℤ → ℤ → ℂ))
    (m_tuple : List ℕ) (xj yj zj : ℝ)
    (prev : ℝ × ℝ × ℝ × ℝ × ℝ) (averaging : Bool) : ℝ × ℝ × ℝ × ℝ × ℝ :=
  let cos := cylCos xj yj
  let sin := cylSin xj yj
  let r_cell := cellCoord invdr rmin (cylR xj yj)
  let z_cell := cellCoord invdz zmin zj
  let ir_lowest := cubicLowest r_cell
  let Sr := cubicW (cubicLocal r_cell)
  let iz_lowest := cubicLowest z_cell
  let Sz := cubicW (cubicLocal z_cell)
  let acc := m_tuple.foldl
    (fun (acc : ℂ × ℂ × ℂ × ℂ × ℂ) m =>
      let exptheta_m := (exptheta xj yj) ^ m
      add_cubic_envelope_gather_for_mode m
        acc.1 acc.2.1 acc.2.2.1 acc.2.2.2.1 acc.2.2.2.2 exptheta_m
        (a_tuple.getD m zeroArr) (grad_a_r_tuple.getD m zeroArr)
        (grad_a_t_tuple.getD m zeroArr) (grad_a_z_tuple.getD m zeroArr)
        (dta_tuple.getD m zeroArr)
        ir_lowest iz_lowest Sr Sz Nr Nz)
    (0, 0, 0, 0, 0)
  envelope_write acc.1 acc.2.1 acc.2.2.1 acc.2.2.2.1 acc.2.2.2.2
    cos sin dt prev averaging

/-- Follows the spec's words (claim C2, §4.4): the cubic envelope gather
with the mode↔array pairing taken by tuple position for an arbitrary
ordered list of modes — position `it` contributes mode `m_tuple[it]` using
the grid arrays stored at the same position `it`.  This is the claim's
description, to be compared with `gather_envelope_field_cubic_body`. -/
def gather_envelope_field_cubic_body_positional
    (invdz zmin : ℝ) (Nz : ℤ) (invdr rmin : ℝ) (Nr : ℤ) (dt : ℝ)
    (a_tuple grad_a_r_tuple grad_a_t_tuple grad_a_z_tuple dta_tuple :
      List (ℤ → ℤ → ℂ))
    (m_tuple : List ℕ) (xj yj zj : ℝ)
    (prev : ℝ × ℝ × ℝ × ℝ × ℝ) (averaging : Bool) : ℝ × ℝ × ℝ × ℝ × ℝ :=
  let cos := cylCos xj yj
  let sin := cylSin xj yj
  let r_cell := cellCoord invdr rmin (cylR xj yj)
  let z_cell := cellCoord invdz zmin zj
  let ir_lowest := cubicLowest r_cell
  let Sr := cubicW (cubicLocal r_cell)
  let iz_lowest := cubicLowest z_cell
  let Sz := cubicW (cubicLocal z_cell)
  let acc := (List.range m_tuple.length).foldl
    (fun (acc : ℂ × ℂ × ℂ × ℂ × ℂ) it =>
      let m := m_tuple.getD it 0
      let exptheta_m := (exptheta xj yj) ^ m
      add_cubic_envelope_gather_for_mode m
        acc.1 acc.2.1 acc.2.2.1 acc.2.2.2.1 acc.2.2.2.2 exptheta_m
        (a_tuple.getD it zeroArr) (grad_a_r_tuple.getD it zeroArr)
        (grad_a_t_tuple.getD it zeroArr) (grad_a_z_tuple.getD it zeroArr)
        (dta_tuple.getD it zeroArr)
        ir_lowest iz_lowest Sr Sz Nr Nz)
    (0, 0, 0, 0, 0)
  envelope_write acc.1 acc.2.1 acc.2.2.1 acc.2.2.2.1 acc.2.2.2.2
    cos sin dt prev averaging

/-- Follows the spec's words (claim C2, §4.4) for the linear kernel: the
positional mode↔array pairing, to be compared with
`gather_envelope_field_linear_body` (which implements exactly this). -/
def gather_envelope_field_linear_body_positional
    (invdz zmin : ℝ) (Nz : ℤ) (invdr rmin : ℝ) (Nr : ℤ) (dt : ℝ)
    (a_tuple grad_a_r_tuple grad_a_t_tuple grad_a_z_tuple dta_tuple :
      List (ℤ → ℤ → ℂ))
    (m_tuple : List ℕ) (xj yj zj : ℝ)
    (prev : ℝ × ℝ × ℝ × ℝ × ℝ) (averaging : Bool) : ℝ × ℝ × ℝ × ℝ × ℝ :=
  let cos := cylCos xj yj
  let sin := cylSin xj yj
  let s := linShape invdz zmin Nz invdr rmin Nr (cylR xj yj) zj
  let S_ll := s.Sz_lower * s.Sr_lower
  let S_lu := s.Sz_lower * s.Sr_upper
  let S_ul := s.Sz_upper * s.Sr_lower
  let S_uu := s.Sz_upper * s.Sr_upper
  let S_lg := s.Sz_lower * s.Sr_guard
  let S_ug := s.Sz_upper * s.Sr_guard
  let acc := (List.range m_tuple.length).foldl
    (fun (acc : ℂ × ℂ × ℂ × ℂ × ℂ) it =>
      let m := m_tuple.getD it 0
      let exptheta_m := (exptheta xj yj) ^ m
      add_linear_envelope_gather_for_mode m
        acc.1 acc.2.1 acc.2.2.1 acc.2.2.2.1 acc.2.2.2.2 exptheta_m
        (a_tuple.getD it zeroArr) (grad_a_r_tuple.getD it zeroArr)
        (grad_a_t_tuple.getD it zeroArr) (grad_a_z_tuple.getD it zeroArr)
        (dta_tuple.getD it zeroArr)
        s.iz_lower s.iz_upper s.ir_lower s.ir_upper
        S_ll S_lu S_lg S_ul S_uu S_ug)
    (0, 0, 0, 0, 0)
  envelope_write acc.1 acc.2.1 acc.2.2.1 acc.2.2.2.1 acc.2.2.2.2
    cos sin dt prev averaging

/-- A concrete field grid used to instantiate general theorems: a 2x2 grid
over `[0,1] x [0,1]` whose arrays all hold the constant `1`. -/
def sampleFieldGrid : FieldInterpolationGrid where
  Nz := 2
  Nr := 2
  m := 0
  zmin := 0
  zmax := 1
  rmax := 1
  dz := 1/2
  dr := 1/2
  invvol := fun _ => 1
  Er := fun _ _ => 1
  Et := fun _ _ => 1
  Ez := fun _ _ => 1
  Br := fun _ _ => 1
  Bt := fun _ _ => 1
  Bz := fun _ _ => 1
  Jr := fun _ _ => 1
  Jt := fun _ _ => 1
  Jz := fun _ _ => 1
  rho := fun _ _ => 1

/-- A concrete envelope grid used to instantiate general theorems. -/
def sampleEnvelopeGrid : EnvelopeInterpolationGrid where
  Nz := 2
  Nr := 2
  m := 0
  zmin := 0
  zmax := 1
  rmax := 1
  dz := 1/2
  dr := 1/2
  invvol := fun _ => 1
  a := fun _ _ => 1
  dta := fun _ _ => 1
  grad_a_r := fun _ _ => 1
  grad_a_t := fun _ _ => 1
  grad_a_z := fun _ _ => 1
  chi := fun _ _ => 1
  chi_a := fun _ _ => 1

end

/-! ### Boundary treatment of the linear shape (claim C4) -/

/-- The conclusion of claim C4, packaged: all retained support indices of the
linear shape lie in `[0,Nr-1] × [0,Nz-1]`; a raw radial lower index below 0
has its weight moved to the guard bucket, its regular lower weight zeroed and
its index clamped to 0; raw radial indices above `Nr-1` are clamped to
`Nr-1`; raw longitudinal indices outside `[0,Nz-1]` are shifted by exactly
`±Nz`; and the particle at `z = zmin - 0.4*dz` gets lower support index
`Nz-1`. -/
abbrev linearBoundaryOK (invdz zmin : ℚ) (Nz : ℤ) (invdr rmin : ℚ) (Nr : ℤ)
    (r z : ℚ) : Prop :=
  let s := linShape invdz zmin Nz invdr rmin Nr r z
  let raw := linShapeRaw (cellCoord invdr rmin r) (cellCoord invdz zmin z)
  (0 ≤ s.ir_lower ∧ s.ir_lower ≤ Nr - 1) ∧
  (0 ≤ s.ir_upper ∧ s.ir_upper ≤ Nr - 1) ∧
  (0 ≤ s.iz_lower ∧ s.iz_lower ≤ Nz - 1) ∧
  (0 ≤ s.iz_upper ∧ s.iz_upper ≤ Nz - 1) ∧
  (raw.ir_lower < 0 →
    s.Sr_guard = raw.Sr_lower ∧ s.Sr_lower = 0 ∧ s.ir_lower = 0) ∧
  (raw.ir_upper > Nr - 1 → s.ir_upper = Nr - 1) ∧
  (raw.iz_lower < 0 → s.iz_lower = raw.iz_lower + Nz) ∧
  (raw.iz_lower > Nz - 1 → s.iz_lower = raw.iz_lower - Nz) ∧
  (raw.iz_upper < 0 → s.iz_upper = raw.iz_upper + Nz) ∧
  (raw.iz_upper > Nz - 1 → s.iz_upper = raw.iz_upper - Nz) ∧
  (linShape invdz zmin Nz invdr rmin Nr r (zmin - (2/5)/invdz)).iz_lower = Nz - 1

/-- The grid metadata that claim C8/C10 require to be preserved:
all scalar geometry attributes and `invvol`. -/
abbrev fieldMetaUnchanged (h g : FieldInterpolationGrid) : Prop :=
  h.Nz = g.Nz ∧
  h.Nr = g.Nr ∧
  h.m = g.m ∧
  h.zmin = g.zmin ∧
  h.zmax = g.zmax ∧
  h.rmax = g.rmax ∧
  h.dz = g.dz ∧
  h.dr = g.dr ∧
  h.invvol = g.invvol

/-- Envelope-grid analogue of `fieldMetaUnchanged`. -/
abbrev envMetaUnchanged (h g : EnvelopeInterpolationGrid) : Prop :=
  h.Nz = g.Nz ∧
  h.Nr = g.Nr ∧
  h.m = g.m ∧
  h.zmin = g.zmin ∧
  h.zmax = g.zmax ∧
  h.rmax = g.rmax ∧
  h.dz = g.dz ∧
  h.dr = g.dr ∧
  h.invvol = g.invvol

/-- The amended conclusion of claim C7: the exact accepted group-name sets
of the four operations, the zeroing behaviour of `erase`, and the
raise-and-leave-unchanged behaviour on the unrecognized names
`s1, s2, s3, s4`. -/
abbrev eraseGroupNamesOK (g : FieldInterpolationGrid)
    (eg : EnvelopeInterpolationGrid) (s1 s2 s3 s4 : String) : Prop :=
  (g.erase "E").2 = none ∧
  (g.erase "E").1.Er = zeroArr ∧
  (g.erase "E").1.Et = zeroArr ∧
  (g.erase "E").1.Ez = zeroArr ∧
  (g.erase "B").2 = none ∧
  (g.erase "B").1.Br = zeroArr ∧
  (g.erase "B").1.Bt = zeroArr ∧
  (g.erase "B").1.Bz = zeroArr ∧
  (g.erase "J").2 = none ∧
  (g.erase "J").1.Jr = zeroArr ∧
  (g.erase "J").1.Jt = zeroArr ∧
  (g.erase "J").1.Jz = zeroArr ∧
  (g.erase "rho").2 = none ∧
  (g.erase "rho").1.rho = zeroArr ∧
  (g.divide_by_volume "rho").2 = none ∧
  (g.divide_by_volume "J").2 = none ∧
  (eg.erase "chi").2 = none ∧
  (eg.erase "chi").1.chi = zeroArr ∧
  (eg.erase "chi_a").2 = none ∧
  (eg.erase "chi_a").1.chi_a = zeroArr ∧
  (eg.divide_by_volume_and_e0 "chi").2 = none ∧
  g.erase s1 = (g, some ("Invalid string for fieldtype: " ++ s1)) ∧
  g.divide_by_volume s2 = (g, some ("Invalid string for fieldtype: " ++ s2)) ∧
  eg.erase s3 = (eg, some ("Invalid string for fieldtype: " ++ s3)) ∧
  eg.divide_by_volume_and_e0 s4 = (eg, some ("Invalid string for fieldtype: " ++ s4))

/-- The conclusion of claim C10: every accepted `erase`/volume-division
call leaves every array outside the named group, and all grid metadata,
unchanged. -/
abbrev eraseDivideFrameOK (g : FieldInterpolationGrid)
    (eg : EnvelopeInterpolationGrid) : Prop :=
  (g.erase "E").1.Br = g.Br ∧
  (g.erase "E").1.Bt = g.Bt ∧
  (g.erase "E").1.Bz = g.Bz ∧
  (g.erase "E").1.Jr = g.Jr ∧
  (g.erase "E").1.Jt = g.Jt ∧
  (g.erase "E").1.Jz = g.Jz ∧
  (g.erase "E").1.rho = g.rho ∧
  fieldMetaUnchanged (g.erase "E").1 g ∧
  (g.erase "B").1.Er = g.Er ∧
  (g.erase "B").1.Et = g.Et ∧
  (g.erase "B").1.Ez = g.Ez ∧
  (g.erase "B").1.Jr = g.Jr ∧
  (g.erase "B").1.Jt = g.Jt ∧
  (g.erase "B").1.Jz = g.Jz ∧
  (g.erase "B").1.rho = g.rho ∧
  fieldMetaUnchanged (g.erase "B").1 g ∧
  (g.erase "J").1.Er = g.Er ∧
  (g.erase "J").1.Et = g.Et ∧
  (g.erase "J").1.Ez = g.Ez ∧
  (g.erase "J").1.Br = g.Br ∧
  (g.erase "J").1.Bt = g.Bt ∧
  (g.erase "J").1.Bz = g.Bz ∧
  (g.erase "J").1.rho = g.rho ∧
  fieldMetaUnchanged (g.erase "J").1 g ∧
  (g.erase "rho").1.Er = g.Er ∧
  (g.erase "rho").1.Et = g.Et ∧
  (g.erase "rho").1.Ez = g.Ez ∧
  (g.erase "rho").1.Br = g.Br ∧
  (g.erase "rho").1.Bt = g.Bt ∧
  (g.erase "rho").1.Bz = g.Bz ∧
  (g.erase "rho").1.Jr = g.Jr ∧
  (g.erase "rho").1.Jt = g.Jt ∧
  (g.erase "rho").1.Jz = g.Jz ∧
  fieldMetaUnchanged (g.erase "rho").1 g ∧
  (g.divide_by_volume "rho").1.Er = g.Er ∧
  (g.divide_by_volume "rho").1.Et = g.Et ∧
  (g.divide_by_volume "rho").1.Ez = g.Ez ∧
  (g.divide_by_volume "rho").1.Br = g.Br ∧
  (g.divide_by_volume "rho").1.Bt = g.Bt ∧
  (g.divide_by_volume "rho").1.Bz = g.Bz ∧
  (g.divide_by_volume "rho").1.Jr = g.Jr ∧
  (g.divide_by_volume "rho").1.Jt = g.Jt ∧
  (g.divide_by_volume "rho").1.Jz = g.Jz ∧
  fieldMetaUnchanged (g.divide_by_volume "rho").1 g ∧
  (g.divide_by_volume "J").1.Er = g.Er ∧
  (g.divide_by_volume "J").1.Et = g.Et ∧
  (g.divide_by_volume "J").1.Ez = g.Ez ∧
  (g.divide_by_volume "J").1.Br = g.Br ∧
  (g.divide_by_volume "J").1.Bt = g.Bt ∧
  (g.divide_by_volume "J").1.Bz = g.Bz ∧
  (g.divide_by_volume "J").1.rho = g.rho ∧
  fieldMetaUnchanged (g.divide_by_volume "J").1 g ∧
  (eg.erase "chi").1.a = eg.a ∧
  (eg.erase "chi").1.dta = eg.dta ∧
  (eg.erase "chi").1.grad_a_r = eg.grad_a_r ∧
  (eg.erase "chi").1.grad_a_t = eg.grad_a_t ∧
  (eg.erase "chi").1.grad_a_z = eg.grad_a_z ∧
  (eg.erase "chi").1.chi_a = eg.chi_a ∧
  envMetaUnchanged (eg.erase "chi").1 eg ∧
  (eg.erase "chi_a").1.a = eg.a ∧
  (eg.erase "chi_a").1.dta = eg.dta ∧
  (eg.erase "chi_a").1.grad_a_r = eg.grad_a_r ∧
  (eg.erase "chi_a").1.grad_a_t = eg.grad_a_t ∧
  (eg.erase "chi_a").1.grad_a_z = eg.grad_a_z ∧
  (eg.erase "chi_a").1.chi = eg.chi ∧
  envMetaUnchanged (eg.erase "chi_a").1 eg ∧
  (eg.divide_by_volume_and_e0 "chi").1.a = eg.a ∧
  (eg.divide_by_volume_and_e0 "chi").1.dta = eg.dta ∧
  (eg.divide_by_volume_and_e0 "chi").1.grad_a_r = eg.grad_a_r ∧
  (eg.divide_by_volume_and_e0 "chi").1.grad_a_t = eg.grad_a_t ∧
  (eg.divide_by_volume_and_e0 "chi").1.grad_a_z = eg.grad_a_z ∧
  (eg.divide_by_volume_and_e0 "chi").1.chi_a = eg.chi_a ∧
  envMetaUnchanged (eg.divide_by_volume_and_e0 "chi").1 eg

/-- The geometry part of claim C8: cell centers strictly inside the box,
exact spacing, positive inverse volumes derived from the shell volume, and
the shell volumes of all `Nz*Nr` cells summing to the box volume
`pi*rmax^2*(zmax-zmin)`. -/
abbrev gridGeometryOK (Nz Nr : ℕ) (zmin zmax rmax : ℝ) : Prop :=
  (∀ i : ℕ, i < Nz →
    zmin < Geom.zc Nz zmin zmax i ∧ Geom.zc Nz zmin zmax i < zmax) ∧
  (∀ i : ℕ,
    Geom.zc Nz zmin zmax (i + 1) - Geom.zc Nz zmin zmax i
      = Geom.dz Nz zmin zmax) ∧
  (∀ j : ℕ, j < Nr →
    0 < Geom.rc Nr rmax j ∧ Geom.rc Nr rmax j < rmax) ∧
  (∀ j : ℕ,
    Geom.rc Nr rmax (j + 1) - Geom.rc Nr rmax j = Geom.dr Nr rmax) ∧
  (∀ j : ℕ, 0 < Geom.invvol Nz Nr zmin zmax rmax j) ∧
  (∀ j : ℕ,
    Geom.invvol Nz Nr zmin zmax rmax j * Geom.vol Nz Nr zmin zmax rmax j
      = 1) ∧
  (∑ _i ∈ Finset.range Nz, ∑ j ∈ Finset.range Nr,
      Geom.vol Nz Nr zmin zmax rmax j
    = Real.pi * rmax ^ 2 * (zmax - zmin))

/-- The full conclusion of claim C8: the geometry invariant together with
its preservation by every subsequent `erase`/volume-division call (none of
which touches the metadata or `invvol`). -/
abbrev gridInvariantOK (Nz Nr : ℕ) (zmin zmax rmax : ℝ) : Prop :=
  gridGeometryOK Nz Nr zmin zmax rmax ∧
  (∀ (g : FieldInterpolationGrid) (fieldtype : String),
    fieldMetaUnchanged (g.erase fieldtype).1 g ∧
    fieldMetaUnchanged (g.divide_by_volume fieldtype).1 g) ∧
  (∀ (eg : EnvelopeInterpolationGrid) (fieldtype : String),
    envMetaUnchanged (eg.erase fieldtype).1 eg ∧
    envMetaUnchanged (eg.divide_by_volume_and_e0 fieldtype).1 eg)

/-- The conclusion of claim C9 for two runs sharing the same grid arrays:
the outputs written at index `i` agree between the two runs (cubic with
arbitrary chunk partitions, and linear), and no slot at `N1 ≤ j` is
written by the first run's kernels. -/
abbrev gatherDeterminismOK
    (invdz zmin : ℝ) (Nz : ℤ) (invdr rmin : ℝ) (Nr : ℤ)
    (Er_m0 Et_m0 Ez_m0 Er_m1 Et_m1 Ez_m1 : ℤ → ℤ → ℂ)
    (Br_m0 Bt_m0 Bz_m0 Br_m1 Bt_m1 Bz_m1 : ℤ → ℤ → ℂ)
    (x1 y1 z1 x2 y2 z2 : ℕ → ℝ) (N1 N2 : ℕ) (n1 n2 : ℕ) (c1 c2 : ℕ → ℕ)
    (out1 out2 : ℕ → ℝ × ℝ × ℝ × ℝ × ℝ × ℝ) (i : ℕ) : Prop :=
  gather_field_numba_cubic invdz zmin Nz invdr rmin Nr
      Er_m0 Et_m0 Ez_m0 Er_m1 Et_m1 Ez_m1
      Br_m0 Bt_m0 Bz_m0 Br_m1 Bt_m1 Bz_m1 x1 y1 z1 n1 c1 out1 i
    = gather_field_numba_cubic invdz zmin Nz invdr rmin Nr
        Er_m0 Et_m0 Ez_m0 Er_m1 Et_m1 Ez_m1
        Br_m0 Bt_m0 Bz_m0 Br_m1 Bt_m1 Bz_m1 x2 y2 z2 n2 c2 out2 i ∧
  gather_field_numba_linear invdz zmin Nz invdr rmin Nr
      Er_m0 Et_m0 Ez_m0 Er_m1 Et_m1 Ez_m1
      Br_m0 Bt_m0 Bz_m0 Br_m1 Bt_m1 Bz_m1 x1 y1 z1 N1 out1 i
    = gather_field_numba_linear invdz zmin Nz invdr rmin Nr
        Er_m0 Et_m0 Ez_m0 Er_m1 Et_m1 Ez_m1
        Br_m0 Bt_m0 Bz_m0 Br_m1 Bt_m1 Bz_m1 x2 y2 z2 N2 out2 i ∧
  (∀ j : ℕ, N1 ≤ j →
    gather_field_numba_cubic invdz zmin Nz invdr rmin Nr
        Er_m0 Et_m0 Ez_m0 Er_m1 Et_m1 Ez_m1
        Br_m0 Bt_m0 Bz_m0 Br_m1 Bt_m1 Bz_m1 x1 y1 z1 n1 c1 out1 j
      = out1 j ∧
    gather_field_numba_linear invdz zmin Nz invdr rmin Nr
        Er_m0 Et_m0 Ez_m0 Er_m1 Et_m1 Ez_m1
        Br_m0 Bt_m0 Bz_m0 Br_m1 Bt_m1 Bz_m1 x1 y1 z1 N1 out1 j
      = out1 j)

/-! ### Theorems -/

/-! Basic algebraic facts about the shapes, shared by several proofs. -/

theorem linShapeRaw_Sr_sum (r_cell z_cell : K) :
    (linShapeRaw r_cell z_cell).Sr_lower + (linShapeRaw r_cell z_cell).Sr_upper
      + (linShapeRaw r_cell z_cell).Sr_guard = 1 := by
  simp only [linShapeRaw]
  push_cast
  ring

theorem linShapeRaw_Sz_sum (r_cell z_cell : K) :
    (linShapeRaw r_cell z_cell).Sz_lower + (linShapeRaw r_cell z_cell).Sz_upper = 1 := by
  simp only [linShapeRaw]
  push_cast
  ring

omit [FloorRing K] in
theorem linBoundary_Sr_sum (Nz Nr : ℤ) (s : LinShape K) (h : s.Sr_guard = 0) :
    (linBoundary Nz Nr s).Sr_lower + (linBoundary Nz Nr s).Sr_upper
      + (linBoundary Nz Nr s).Sr_guard
      = s.Sr_lower + s.Sr_upper + s.Sr_guard := by
  simp only [linBoundary, h]
  split <;> ring

omit [FloorRing K] in
theorem linBoundary_Sz_eq (Nz Nr : ℤ) (s : LinShape K) :
    (linBoundary Nz Nr s).Sz_lower = s.Sz_lower ∧
    (linBoundary Nz Nr s).Sz_upper = s.Sz_upper := by
  simp [linBoundary]

theorem linShape_Sr_sum (invdz zmin : K) (Nz : ℤ) (invdr rmin : K) (Nr : ℤ)
    (r z : K) :
    (linShape invdz zmin Nz invdr rmin Nr r z).Sr_lower
      + (linShape invdz zmin Nz invdr rmin Nr r z).Sr_upper
      + (linShape invdz zmin Nz invdr rmin Nr r z).Sr_guard = 1 := by
  unfold linShape
  rw [linBoundary_Sr_sum _ _ _ (by simp [linShapeRaw])]
  exact linShapeRaw_Sr_sum _ _

theorem linShape_Sz_sum (invdz zmin : K) (Nz : ℤ) (invdr rmin : K) (Nr : ℤ)
    (r z : K) :
    (linShape invdz zmin Nz invdr rmin Nr r z).Sz_lower
      + (linShape invdz zmin Nz invdr rmin Nr r z).Sz_upper = 1 := by
  unfold linShape
  rw [(linBoundary_Sz_eq _ _ _).1, (linBoundary_Sz_eq _ _ _).2]
  exact linShapeRaw_Sz_sum _ _

omit [FloorRing K] in
theorem cubicW_sum (u : K) :
    cubicW u 0 + cubicW u 1 + cubicW u 2 + cubicW u 3 = 1 := by
  simp [cubicW]
  ring

/-- C4: in the linear-order shape evaluation, after boundary treatment all
retained support indices lie in `[0,Nr-1] × [0,Nz-1]` for any particle whose
`z` lies within one cell of the box (`-1 ≤ invdz*(z-zmin) ≤ Nz+1`): a radial
lower index below 0 has its weight moved to the guard bucket, its regular
lower weight set to 0 and its index clamped to 0; radial indices above `Nr-1`
are clamped to `Nr-1` with no wraparound; longitudinal indices outside
`[0,Nz-1]` are shifted by exactly `±Nz`; in particular a particle at
`z = zmin - 0.4*dz` yields lower support index `Nz-1`, never a negative
index. -/
theorem linear_boundary_treatment
    (invdz zmin : ℚ) (Nz : ℤ) (invdr rmin : ℚ) (Nr : ℤ) (r z : ℚ)
    (hNz : 2 ≤ Nz) (hNr : 1 ≤ Nr)
    (hinvdz : 0 < invdz) (hinvdr : 0 ≤ invdr) (hrmin : rmin = 0) (hr : 0 ≤ r)
    (hz1 : (-1 : ℚ) ≤ invdz * (z - zmin)) (hz2 : invdz * (z - zmin) ≤ Nz + 1) :
    linearBoundaryOK invdz zmin Nz invdr rmin Nr r z := by
  have hrc : (-1 : ℚ) ≤ cellCoord invdr rmin r := by
    have : 0 ≤ invdr * (r - rmin) := by
      rw [hrmin]
      exact mul_nonneg hinvdr (by linarith)
    simp only [cellCoord]
    linarith
  have ha1 : (-1 : ℤ) ≤ ⌊cellCoord invdr rmin r⌋ := by
    have := Int.le_floor.mpr (by exact_mod_cast hrc)
    simpa using this
  have hzc1 : ((-2 : ℤ) : ℚ) ≤ cellCoord invdz zmin z := by
    simp only [cellCoord]
    push_cast
    linarith
  have hzc2 : cellCoord invdz zmin z < ((Nz + 1 : ℤ) : ℚ) := by
    simp only [cellCoord]
    push_cast
    linarith
  have hb1 : (-2 : ℤ) ≤ ⌊cellCoord invdz zmin z⌋ := Int.le_floor.mpr hzc1
  have hb2 : ⌊cellCoord invdz zmin z⌋ < Nz + 1 := Int.floor_lt.mpr hzc2
  have hspecial :
      (linShape invdz zmin Nz invdr rmin Nr r (zmin - (2/5)/invdz)).iz_lower
        = Nz - 1 := by
    have hz0 : cellCoord invdz zmin (zmin - (2/5)/invdz) = -9/10 := by
      simp only [cellCoord]
      field_simp
      ring
    have hfl : ⌊cellCoord invdz zmin (zmin - (2/5)/invdz)⌋ = -1 := by
      rw [hz0]
      norm_num
    simp only [linShape, linShapeRaw, linBoundary, hfl]
    norm_num
    omega
  refine ⟨?_, ?_, ?_, ?_, ?_, ?_, ?_, ?_, ?_, ?_, hspecial⟩ <;>
  · simp only [linShape, linShapeRaw, linBoundary]
    split_ifs <;> simp_all <;> omega

/-- Witness for C4 at the concrete input of the claim's special case:
`invdz = 1, zmin = 0, Nz = 4, invdr = 1, rmin = 0, Nr = 3`, particle at
`r = 0`, `z = -2/5 = zmin - 0.4*dz`. -/
theorem linear_boundary_treatment_witness :
    linearBoundaryOK 1 0 4 1 0 3 0 (-2/5) :=
  linear_boundary_treatment 1 0 4 1 0 3 0 (-2/5)
    (by norm_num) (by norm_num) (by norm_num) (by norm_num) rfl
    (by norm_num) (by norm_num) (by norm_num)

/-- C5: the shape-function weights form a partition of unity on each axis:
for every real cell coordinate the two linear weights
`(upper_index - coordinate)` and `(coordinate - lower_index)` sum exactly
to 1, and for every local offset `u` the four cubic weights sum exactly
to 1. -/
theorem shape_partition_of_unity :
    ∀ r_cell z_cell u : ℝ,
      (linShapeRaw r_cell z_cell).Sr_lower
        + (linShapeRaw r_cell z_cell).Sr_upper = 1 ∧
      (linShapeRaw r_cell z_cell).Sz_lower
        + (linShapeRaw r_cell z_cell).Sz_upper = 1 ∧
      cubicW u 0 + cubicW u 1 + cubicW u 2 + cubicW u 3 = 1 := by
  intro r_cell z_cell u
  refine ⟨?_, linShapeRaw_Sz_sum r_cell z_cell, cubicW_sum u⟩
  simp only [linShapeRaw]
  push_cast
  ring



/-! Claims C6, C7, C10: grid construction and group-name handling. -/

/-- C6 counterexample: the constructor accepts an inverted box.  With
`Nz = Nr = 4`, `zmin = 0`, `zmax = -1`, `rmax = 1` the arguments violate
`zmax > zmin`, yet `__init__` completes without raising (it computes
`dz = -1/4`): the claim that such a construction fails with a configuration
error is false. -/
theorem init_accepts_inverted_box :
    initOk (InterpolationGrid.init 4 4 0 0 (-1) 1) = true := by
  norm_num [InterpolationGrid.init, initOk]

/-- C6 (amended): grid construction fails (with a `ZeroDivisionError`, the
only error the constructor can raise) exactly when `Nr = 0`, `Nz = 0`,
`rmax = 0` or `zmax = zmin`; in particular construction with arguments
satisfying `Nz > 0`, `Nr > 0`, `zmax > zmin`, `rmax > 0` succeeds, but so
does construction with nonzero arguments violating those conditions — the
constructor performs no range validation. -/
theorem init_succeeds_iff (Nz Nr m : ℤ) (zmin zmax rmax : ℚ) :
    initOk (InterpolationGrid.init Nz Nr m zmin zmax rmax) = true ↔
      (Nr ≠ 0 ∧ Nz ≠ 0 ∧ rmax ≠ 0 ∧ zmax ≠ zmin) := by
  simp only [InterpolationGrid.init]
  split_ifs with h1 h2 h3 h4 <;>
    simp_all [initOk, div_eq_zero_iff, sub_eq_zero, Int.cast_eq_zero]

/-- Witness for (the amended) C6 at a concrete input satisfying all four
validity conditions. -/
theorem init_succeeds_iff_witness :
    initOk (InterpolationGrid.init 4 4 0 0 1 1) = true :=
  (init_succeeds_iff 4 4 0 0 1 1).mpr (by norm_num)

/-- C7 counterexample: the claim states that `divide_by_volume` accepts
exactly `{E, B, J, rho}` on a field grid, but calling it with `'E'` raises
the invalid-group `ValueError`: only `'rho'` and `'J'` are accepted. -/
theorem divide_by_volume_rejects_E :
    (sampleFieldGrid.divide_by_volume "E").2
      = some "Invalid string for fieldtype: E" := by
  rfl

/-- C7 (amended): on a field grid `erase` accepts exactly
`{E, B, J, rho}` while `divide_by_volume` accepts exactly `{rho, J}`; on an
envelope grid `erase` accepts exactly `{chi, chi_a}` and
`divide_by_volume_and_e0` exactly `{chi}`.  `erase` with an accepted name
sets every entry of that group's arrays to zero, and each operation called
with any unrecognized name raises the fatal invalid-group error and leaves
every array of the grid unchanged. -/
theorem erase_divide_group_names (g : FieldInterpolationGrid)
    (eg : EnvelopeInterpolationGrid) (s1 s2 s3 s4 : String)
    (h1 : s1 ∉ ["rho", "J", "E", "B"]) (h2 : s2 ∉ ["rho", "J"])
    (h3 : s3 ∉ ["chi", "chi_a"]) (h4 : s4 ∉ ["chi"]) :
    eraseGroupNamesOK g eg s1 s2 s3 s4 := by
  simp only [List.mem_cons, List.not_mem_nil, or_false, not_or] at h1 h2 h3 h4
  obtain ⟨h1a, h1b, h1c, h1d⟩ := h1
  obtain ⟨h2a, h2b⟩ := h2
  obtain ⟨h3a, h3b⟩ := h3
  simp [eraseGroupNamesOK, FieldInterpolationGrid.erase,
    FieldInterpolationGrid.divide_by_volume, EnvelopeInterpolationGrid.erase,
    EnvelopeInterpolationGrid.divide_by_volume_and_e0, zeroArr,
    h1a, h1b, h1c, h1d, h2a, h2b, h3a, h3b, h4]
  all_goals rfl

/-- Witness for (the amended) C7 on the sample grids, with the concrete
rejected names `'x'` for erase, `'E'` for `divide_by_volume` (accepted by
`erase` but not by the division), `'rho'` for the envelope erase, and
`'chi_a'` for `divide_by_volume_and_e0` (accepted by the envelope erase but
not by the division). -/
theorem erase_divide_group_names_witness :
    eraseGroupNamesOK sampleFieldGrid sampleEnvelopeGrid "x" "E" "rho" "chi_a" :=
  erase_divide_group_names sampleFieldGrid sampleEnvelopeGrid "x" "E" "rho" "chi_a"
    (by decide) (by decide) (by decide) (by decide)

/-- C10: `erase` and the volume-division operations, called with an accepted
group name, modify only the arrays of that group: every field array outside
the named group, and all grid metadata (`Nz, Nr, m, zmin, zmax, rmax, dz,
dr, invvol`), are left unchanged, on field grids and envelope grids
alike. -/
theorem erase_divide_frame (g : FieldInterpolationGrid)
    (eg : EnvelopeInterpolationGrid) :
    eraseDivideFrameOK g eg := by
  simp [eraseDivideFrameOK, FieldInterpolationGrid.erase,
    FieldInterpolationGrid.divide_by_volume, EnvelopeInterpolationGrid.erase,
    EnvelopeInterpolationGrid.divide_by_volume_and_e0,
    fieldMetaUnchanged, envMetaUnchanged]


/-! Claim C8: the grid geometry invariant. -/

theorem sum_two_mul_add_one (n : ℕ) :
    ∑ j ∈ Finset.range n, (2 * (j : ℝ) + 1) = (n : ℝ) ^ 2 := by
  induction n with
  | zero => simp
  | succ n ih =>
    rw [Finset.sum_range_succ, ih]
    push_cast
    ring

theorem vol_closed_form (Nz Nr : ℕ) (zmin zmax rmax : ℝ) (j : ℕ) :
    Geom.vol Nz Nr zmin zmax rmax j
      = Real.pi * Geom.dz Nz zmin zmax
          * ((2 * (j : ℝ) + 1) * Geom.dr Nr rmax ^ 2) := by
  simp only [Geom.vol, Geom.rc]
  ring

/-- C8: for every grid constructed with `Nz > 0`, `Nr > 0`, `zmax > zmin`,
`rmax > 0`, the geometry invariant holds and is preserved by every
subsequent erase/divide operation: cell centers `z(i) = zmin+(i+0.5)*dz`,
`r(j) = (j+0.5)*dr` lie strictly inside `[zmin,zmax]` and `[0,rmax]` with
consecutive centers spaced exactly `dz`, `dr`; every `invvol[j]` is
strictly positive and derived from the shell volume
`pi*dz*((r_j+dr/2)^2-(r_j-dr/2)^2)`; and the shell volumes of all cells sum
to `pi*rmax^2*(zmax-zmin)`. -/
theorem grid_geometry_invariant (Nz Nr : ℕ) (zmin zmax rmax : ℝ)
    (hNz : 0 < Nz) (hNr : 0 < Nr) (hz : zmin < zmax) (hr : 0 < rmax) :
    gridInvariantOK Nz Nr zmin zmax rmax := by
  have hNzR : (0 : ℝ) < Nz := by exact_mod_cast hNz
  have hNrR : (0 : ℝ) < Nr := by exact_mod_cast hNr
  have hdz : 0 < Geom.dz Nz zmin zmax := div_pos (by linarith) hNzR
  have hdr : 0 < Geom.dr Nr rmax := div_pos hr hNrR
  have hNzdz : (Nz : ℝ) * Geom.dz Nz zmin zmax = zmax - zmin := by
    field_simp [Geom.dz]
  have hNrdr : (Nr : ℝ) * Geom.dr Nr rmax = rmax := by
    field_simp [Geom.dr]
  have hvol : ∀ j : ℕ, 0 < Geom.vol Nz Nr zmin zmax rmax j := by
    intro j
    rw [vol_closed_form]
    have h2j : (0 : ℝ) < 2 * (j : ℝ) + 1 := by positivity
    exact mul_pos (mul_pos Real.pi_pos hdz) (mul_pos h2j (pow_pos hdr 2))
  refine ⟨⟨?_, ?_, ?_, ?_, ?_, ?_, ?_⟩, ?_, ?_⟩
  · intro i hi
    have hi1 : (i : ℝ) + 1 ≤ Nz := by exact_mod_cast hi
    constructor
    · have : 0 < (0.5 + (i : ℝ)) * Geom.dz Nz zmin zmax :=
        mul_pos (by positivity) hdz
      simp only [Geom.zc]
      linarith
    · have hlt : (0.5 + (i : ℝ)) < (Nz : ℝ) := by linarith
      have := (mul_lt_mul_of_pos_right hlt hdz)
      simp only [Geom.zc]
      linarith [hNzdz]
  · intro i
    simp only [Geom.zc]
    push_cast
    ring
  · intro j hj
    have hj1 : (j : ℝ) + 1 ≤ Nr := by exact_mod_cast hj
    constructor
    · exact mul_pos (by positivity) hdr
    · have hlt : (0.5 + (j : ℝ)) < (Nr : ℝ) := by linarith
      have := (mul_lt_mul_of_pos_right hlt hdr)
      simp only [Geom.rc]
      linarith [hNrdr]
  · intro j
    simp only [Geom.rc]
    push_cast
    ring
  · intro j
    exact one_div_pos.mpr (hvol j)
  · intro j
    exact one_div_mul_cancel (ne_of_gt (hvol j))
  · have hinner : ∑ j ∈ Finset.range Nr, Geom.vol Nz Nr zmin zmax rmax j
        = Real.pi * Geom.dz Nz zmin zmax * Geom.dr Nr rmax ^ 2 * (Nr : ℝ) ^ 2 := by
      rw [Finset.sum_congr rfl
        (fun j _ => (vol_closed_form Nz Nr zmin zmax rmax j))]
      rw [Finset.sum_congr rfl (fun j _ => by ring :
        ∀ j ∈ Finset.range Nr,
          Real.pi * Geom.dz Nz zmin zmax
              * ((2 * (j : ℝ) + 1) * Geom.dr Nr rmax ^ 2)
            = Real.pi * Geom.dz Nz zmin zmax * Geom.dr Nr rmax ^ 2
                * (2 * (j : ℝ) + 1))]
      rw [← Finset.mul_sum, sum_two_mul_add_one]
    rw [Finset.sum_const, Finset.card_range, hinner, nsmul_eq_mul]
    calc (Nz : ℝ) * (Real.pi * Geom.dz Nz zmin zmax * Geom.dr Nr rmax ^ 2
            * (Nr : ℝ) ^ 2)
        = Real.pi * ((Nr : ℝ) * Geom.dr Nr rmax) ^ 2
            * ((Nz : ℝ) * Geom.dz Nz zmin zmax) := by ring
      _ = Real.pi * rmax ^ 2 * (zmax - zmin) := by rw [hNrdr, hNzdz]
  · intro g fieldtype
    constructor <;>
    · simp only [FieldInterpolationGrid.erase,
        FieldInterpolationGrid.divide_by_volume]
      split_ifs <;> simp [fieldMetaUnchanged]
  · intro eg fieldtype
    constructor <;>
    · simp only [EnvelopeInterpolationGrid.erase,
        EnvelopeInterpolationGrid.divide_by_volume_and_e0]
      split_ifs <;> simp [envMetaUnchanged]

/-- Witness for C8 on the concrete grid `Nz = 2`, `Nr = 1`,
`[zmin, zmax] = [0, 1]`, `rmax = 1`. -/
theorem grid_geometry_invariant_witness : gridInvariantOK 2 1 0 1 1 :=
  grid_geometry_invariant 2 1 0 1 1
    (by norm_num) (by norm_num) (by norm_num) (by norm_num)


/-! Claim C9: order-independence of the gather kernels. -/

theorem chunkWrite_apply {α : Type} (body out : ℕ → α) (start n j : ℕ) :
    chunkWrite body out start n j
      = if start ≤ j ∧ j < start + n then body j else out j := by
  induction n with
  | zero =>
    rw [if_neg (by omega)]
    rfl
  | succ n ih =>
    simp only [chunkWrite]
    rcases eq_or_ne j (start + n) with hj | hj
    · subst hj
      rw [Function.update_same, if_pos (by omega)]
    · rw [Function.update_noteq hj, ih]
      by_cases h : start ≤ j ∧ j < start + n
      · rw [if_pos h, if_pos (by omega)]
      · rw [if_neg h, if_neg (by omega)]

theorem chunk_start_le (c : ℕ → ℕ) (n : ℕ)
    (h : ∀ k, k < n → c k ≤ c (k + 1)) : c 0 ≤ c n := by
  induction n with
  | zero => exact le_refl _
  | succ n ih =>
    exact le_trans (ih (fun k hk => h k (by omega))) (h n (by omega))

theorem runChunks_apply {α : Type} (body : ℕ → α) (c : ℕ → ℕ)
    (nthreads : ℕ) (out : ℕ → α)
    (hmono : ∀ k, k < nthreads → c k ≤ c (k + 1)) (j : ℕ) :
    runChunks body c nthreads out j
      = if c 0 ≤ j ∧ j < c nthreads then body j else out j := by
  induction nthreads with
  | zero =>
    rw [if_neg (by omega)]
    rfl
  | succ n ih =>
    have hstep : c n ≤ c (n + 1) := hmono n (by omega)
    have h0n : c 0 ≤ c n := chunk_start_le c n (fun k hk => hmono k (by omega))
    have hrw : runChunks body c (n + 1) out
        = chunkWrite body (runChunks body c n out) (c n) (c (n + 1) - c n) := by
      simp [runChunks, List.range_succ]
    rw [hrw, chunkWrite_apply,
      ih (fun k hk => hmono k (by omega))]
    by_cases hA : c n ≤ j ∧ j < c n + (c (n + 1) - c n)
    · rw [if_pos hA, if_pos (by omega)]
    · rw [if_neg hA]
      by_cases hB : c 0 ≤ j ∧ j < c n
      · rw [if_pos hB, if_pos (by omega)]
      · rw [if_neg hB, if_neg (by omega)]

/-- C9: the field gather is order-independent and frame-respecting.  For two
runs of the kernels on equal grid arrays, if particle `i` has the same
position in both runs then the outputs written at `i` are equal, regardless
of the other particles' positions, of the numbers of particles `N1, N2` and
of the chunk partitions `c1, c2`; and no output slot outside `[0, N1)` is
written.  (The kernels are pure in the grid arrays and positions: the
embedding returns only the output arrays, which is the content of the
never-modifies-inputs part of the claim.) -/
theorem gather_order_independent
    (invdz zmin : ℝ) (Nz : ℤ) (invdr rmin : ℝ) (Nr : ℤ)
    (Er_m0 Et_m0 Ez_m0 Er_m1 Et_m1 Ez_m1 : ℤ → ℤ → ℂ)
    (Br_m0 Bt_m0 Bz_m0 Br_m1 Bt_m1 Bz_m1 : ℤ → ℤ → ℂ)
    (x1 y1 z1 x2 y2 z2 : ℕ → ℝ) (N1 N2 : ℕ) (n1 n2 : ℕ) (c1 c2 : ℕ → ℕ)
    (out1 out2 : ℕ → ℝ × ℝ × ℝ × ℝ × ℝ × ℝ) (i : ℕ)
    (hc1a : c1 0 = 0) (hc1b : c1 n1 = N1)
    (hc1m : ∀ k, k < n1 → c1 k ≤ c1 (k + 1))
    (hc2a : c2 0 = 0) (hc2b : c2 n2 = N2)
    (hc2m : ∀ k, k < n2 → c2 k ≤ c2 (k + 1))
    (hi1 : i < N1) (hi2 : i < N2)
    (hx : x1 i = x2 i) (hy : y1 i = y2 i) (hz : z1 i = z2 i) :
    gatherDeterminismOK invdz zmin Nz invdr rmin Nr
      Er_m0 Et_m0 Ez_m0 Er_m1 Et_m1 Ez_m1
      Br_m0 Bt_m0 Bz_m0 Br_m1 Bt_m1 Bz_m1
      x1 y1 z1 x2 y2 z2 N1 N2 n1 n2 c1 c2 out1 out2 i := by
  refine ⟨?_, ?_, ?_⟩
  · unfold gather_field_numba_cubic
    rw [runChunks_apply _ _ _ _ hc1m, runChunks_apply _ _ _ _ hc2m,
      if_pos (by omega), if_pos (by omega), hx, hy, hz]
  · unfold gather_field_numba_linear
    rw [if_pos hi1, if_pos hi2, hx, hy, hz]
  · intro j hj
    constructor
    · unfold gather_field_numba_cubic
      rw [runChunks_apply _ _ _ _ hc1m, if_neg (by omega)]
    · unfold gather_field_numba_linear
      rw [if_neg (by omega)]

/-- Witness for C9: one particle at the origin of a zeroed grid, compared
across two different chunk partitions (one chunk `[0,1)` versus two chunks
`[0,1), [1,1)`) and different trailing particle counts. -/
theorem gather_order_independent_witness :
    gatherDeterminismOK 1 0 4 1 0 4
      zeroArr zeroArr zeroArr zeroArr zeroArr zeroArr
      zeroArr zeroArr zeroArr zeroArr zeroArr zeroArr
      (fun _ => 0) (fun _ => 0) (fun _ => 0)
      (fun _ => 0) (fun _ => 0) (fun _ => 0)
      1 1 1 2 (fun k => k) (fun k => min k 1)
      (fun _ => (0, 0, 0, 0, 0, 0)) (fun _ => (0, 0, 0, 0, 0, 0)) 0 :=
  gather_order_independent 1 0 4 1 0 4
    zeroArr zeroArr zeroArr zeroArr zeroArr zeroArr
    zeroArr zeroArr zeroArr zeroArr zeroArr zeroArr
    (fun _ => 0) (fun _ => 0) (fun _ => 0)
    (fun _ => 0) (fun _ => 0) (fun _ => 0)
    1 1 1 2 (fun k => k) (fun k => min k 1)
    (fun _ => (0, 0, 0, 0, 0, 0)) (fun _ => (0, 0, 0, 0, 0, 0)) 0
    rfl rfl (fun k _ => by simp)
    rfl rfl (fun k _ => by simp [min_le_min_right])
    (by omega) (by omega) rfl rfl rfl


/-! Claim C1: uniform mode-0 fields are reproduced exactly. -/

theorem cylR_nonneg (x y : ℝ) : 0 ≤ cylR x y :=
  Real.sqrt_nonneg _

theorem cylCos_zero : cylCos 0 0 = 1 := by
  simp [cylCos, cylR]

theorem cylSin_zero : cylSin 0 0 = 0 := by
  simp [cylSin, cylR]

theorem cyl_sq_sum (x y : ℝ) : cylCos x y ^ 2 + cylSin x y ^ 2 = 1 := by
  unfold cylCos cylSin
  by_cases h : cylR x y = 0
  · simp [h]
  · have hr2 : cylR x y ^ 2 = x ^ 2 + y ^ 2 :=
      Real.sq_sqrt (by positivity)
    rw [if_neg h, if_neg h, div_pow, div_pow, div_add_div_same, hr2]
    exact div_self (by
      intro h0
      exact h (by rw [cylR, h0, Real.sqrt_zero]))

theorem lin_gather_sum_zeroArr (exptheta_m : ℂ)
    (iz_lower iz_upper ir_lower ir_upper : ℤ)
    (S_ll S_lu S_lg S_ul S_uu S_ug : ℝ) :
    lin_gather_sum zeroArr exptheta_m iz_lower iz_upper ir_lower ir_upper
      S_ll S_lu S_lg S_ul S_uu S_ug = 0 := by
  simp [lin_gather_sum, zeroArr]

theorem lin_gather_sum_const (c : ℂ) (exptheta_m : ℂ)
    (iz_lower iz_upper ir_lower ir_upper : ℤ)
    (S_ll S_lu S_lg S_ul S_uu S_ug : ℝ) :
    lin_gather_sum (fun _ _ => c) exptheta_m iz_lower iz_upper ir_lower
        ir_upper S_ll S_lu S_lg S_ul S_uu S_ug
      = ((S_ll + S_lu + S_lg + S_ul + S_uu + S_ug : ℝ) : ℂ)
          * (c * exptheta_m) := by
  simp only [lin_gather_sum]
  push_cast
  ring

theorem cubic_gather_sum_zeroArr (exptheta_m : ℂ) (ir_lowest iz_lowest : ℤ)
    (Sr Sz : Fin 4 → ℝ) (Nr Nz : ℤ) :
    cubic_gather_sum zeroArr exptheta_m ir_lowest iz_lowest Sr Sz Nr Nz
      = 0 := by
  simp [cubic_gather_sum, zeroArr]

theorem cubic_gather_sum_const (c : ℂ) (exptheta_m : ℂ)
    (ir_lowest iz_lowest : ℤ) (Sr Sz : Fin 4 → ℝ) (Nr Nz : ℤ) :
    cubic_gather_sum (fun _ _ => c) exptheta_m ir_lowest iz_lowest Sr Sz Nr Nz
      = (((Sz 0 + Sz 1 + Sz 2 + Sz 3) * (Sr 0 + Sr 1 + Sr 2 + Sr 3) : ℝ) : ℂ)
          * (c * exptheta_m) := by
  simp only [cubic_gather_sum, Fin.sum_univ_four]
  push_cast
  ring

theorem linShape_weight_total (invdz zmin : ℝ) (Nz : ℤ) (invdr rmin : ℝ)
    (Nr : ℤ) (r z : ℝ) :
    (linShape invdz zmin Nz invdr rmin Nr r z).Sz_lower
        * (linShape invdz zmin Nz invdr rmin Nr r z).Sr_lower
      + (linShape invdz zmin Nz invdr rmin Nr r z).Sz_lower
          * (linShape invdz zmin Nz invdr rmin Nr r z).Sr_upper
      + (linShape invdz zmin Nz invdr rmin Nr r z).Sz_lower
          * (linShape invdz zmin Nz invdr rmin Nr r z).Sr_guard
      + (linShape invdz zmin Nz invdr rmin Nr r z).Sz_upper
          * (linShape invdz zmin Nz invdr rmin Nr r z).Sr_lower
      + (linShape invdz zmin Nz invdr rmin Nr r z).Sz_upper
          * (linShape invdz zmin Nz invdr rmin Nr r z).Sr_upper
      + (linShape invdz zmin Nz invdr rmin Nr r z).Sz_upper
          * (linShape invdz zmin Nz invdr rmin Nr r z).Sr_guard = 1 := by
  have h1 := linShape_Sr_sum invdz zmin Nz invdr rmin Nr r z
  have h2 := linShape_Sz_sum invdz zmin Nz invdr rmin Nr r z
  set s := linShape invdz zmin Nz invdr rmin Nr r z with hs
  calc s.Sz_lower * s.Sr_lower + s.Sz_lower * s.Sr_upper
        + s.Sz_lower * s.Sr_guard + s.Sz_upper * s.Sr_lower
        + s.Sz_upper * s.Sr_upper + s.Sz_upper * s.Sr_guard
      = (s.Sz_lower + s.Sz_upper)
          * (s.Sr_lower + s.Sr_upper + s.Sr_guard) := by ring
    _ = 1 := by rw [h1, h2, mul_one]

theorem lin_body_uniform_Er0 (invdz zmin : ℝ) (Nz : ℤ) (invdr rmin : ℝ)
    (Nr : ℤ) (c : ℂ) (x y z : ℝ) :
    gather_field_linear_body invdz zmin Nz invdr rmin Nr
      (fun _ _ => c) zeroArr zeroArr zeroArr zeroArr zeroArr
      zeroArr zeroArr zeroArr zeroArr zeroArr zeroArr x y z
      = (cylCos x y * c.re, cylSin x y * c.re, 0, 0, 0, 0) := by
  have htot := linShape_weight_total invdz zmin Nz invdr rmin Nr (cylR x y) z
  simp only [gather_field_linear_body, add_linear_gather_for_mode,
    lin_gather_sum_zeroArr, lin_gather_sum_const, add_zero, zero_add]
  rw [htot]
  simp [Complex.ext_iff, Complex.mul_re, Complex.mul_im]

theorem lin_body_uniform_Ez0 (invdz zmin : ℝ) (Nz : ℤ) (invdr rmin : ℝ)
    (Nr : ℤ) (c : ℂ) (x y z : ℝ) :
    gather_field_linear_body invdz zmin Nz invdr rmin Nr
      zeroArr zeroArr (fun _ _ => c) zeroArr zeroArr zeroArr
      zeroArr zeroArr zeroArr zeroArr zeroArr zeroArr x y z
      = (0, 0, c.re, 0, 0, 0) := by
  have htot := linShape_weight_total invdz zmin Nz invdr rmin Nr (cylR x y) z
  simp only [gather_field_linear_body, add_linear_gather_for_mode,
    lin_gather_sum_zeroArr, lin_gather_sum_const, add_zero, zero_add]
  rw [htot]
  simp [Complex.ext_iff, Complex.mul_re, Complex.mul_im]

theorem cub_body_uniform_Er0 (invdz zmin : ℝ) (Nz : ℤ) (invdr rmin : ℝ)
    (Nr : ℤ) (c : ℂ) (x y z : ℝ) :
    gather_field_cubic_body invdz zmin Nz invdr rmin Nr
      (fun _ _ => c) zeroArr zeroArr zeroArr zeroArr zeroArr
      zeroArr zeroArr zeroArr zeroArr zeroArr zeroArr x y z
      = (cylCos x y * c.re, cylSin x y * c.re, 0, 0, 0, 0) := by
  simp only [gather_field_cubic_body, add_cubic_gather_for_mode,
    cubic_gather_sum_zeroArr, cubic_gather_sum_const, add_zero, zero_add]
  rw [cubicW_sum, cubicW_sum]
  simp [Complex.ext_iff, Complex.mul_re, Complex.mul_im]

theorem cub_body_uniform_Ez0 (invdz zmin : ℝ) (Nz : ℤ) (invdr rmin : ℝ)
    (Nr : ℤ) (c : ℂ) (x y z : ℝ) :
    gather_field_cubic_body invdz zmin Nz invdr rmin Nr
      zeroArr zeroArr (fun _ _ => c) zeroArr zeroArr zeroArr
      zeroArr zeroArr zeroArr zeroArr zeroArr zeroArr x y z
      = (0, 0, c.re, 0, 0, 0) := by
  simp only [gather_field_cubic_body, add_cubic_gather_for_mode,
    cubic_gather_sum_zeroArr, cubic_gather_sum_const, add_zero, zero_add]
  rw [cubicW_sum, cubicW_sum]
  simp [Complex.ext_iff, Complex.mul_re, Complex.mul_im]


/-- C1: for every particle position and every grid in which all mode-1
arrays are zero and one mode-0 field array is uniformly the complex
constant `c`, both the linear- and cubic-order gathers write exactly the
real part of `c` into the corresponding output component: a uniform mode-0
`Ez` array yields output `Ez = Re c` at every position; a uniform mode-0
`Er` array yields `(Ex, Ey) = (cos*Re c, sin*Re c)`, whose radial
projection `cos*Ex + sin*Ey` is exactly `Re c`, with `Ez = 0`; and in
particular a particle at `x = 0, y = 0` (where the kernel uses `cos = 1`,
`sin = 0`) with mode-0 `Er` uniform gets `Ex = Re c, Ey = 0, Ez = 0` and
zero magnetic output. -/
theorem gather_uniform_mode0_reproduces_constant
    (invdz zmin : ℝ) (Nz : ℤ) (invdr rmin : ℝ) (Nr : ℤ) (c : ℂ) (x y z : ℝ) :
    (gather_field_linear_body invdz zmin Nz invdr rmin Nr
        (fun _ _ => c) zeroArr zeroArr zeroArr zeroArr zeroArr
        zeroArr zeroArr zeroArr zeroArr zeroArr zeroArr x y z
      = (cylCos x y * c.re, cylSin x y * c.re, 0, 0, 0, 0)) ∧
    (cylCos x y * (gather_field_linear_body invdz zmin Nz invdr rmin Nr
          (fun _ _ => c) zeroArr zeroArr zeroArr zeroArr zeroArr
          zeroArr zeroArr zeroArr zeroArr zeroArr zeroArr x y z).1
        + cylSin x y * (gather_field_linear_body invdz zmin Nz invdr rmin Nr
          (fun _ _ => c) zeroArr zeroArr zeroArr zeroArr zeroArr
          zeroArr zeroArr zeroArr zeroArr zeroArr zeroArr x y z).2.1
      = c.re) ∧
    (gather_field_linear_body invdz zmin Nz invdr rmin Nr
        zeroArr zeroArr (fun _ _ => c) zeroArr zeroArr zeroArr
        zeroArr zeroArr zeroArr zeroArr zeroArr zeroArr x y z
      = (0, 0, c.re, 0, 0, 0)) ∧
    (gather_field_cubic_body invdz zmin Nz invdr rmin Nr
        (fun _ _ => c) zeroArr zeroArr zeroArr zeroArr zeroArr
        zeroArr zeroArr zeroArr zeroArr zeroArr zeroArr x y z
      = (cylCos x y * c.re, cylSin x y * c.re, 0, 0, 0, 0)) ∧
    (cylCos x y * (gather_field_cubic_body invdz zmin Nz invdr rmin Nr
          (fun _ _ => c) zeroArr zeroArr zeroArr zeroArr zeroArr
          zeroArr zeroArr zeroArr zeroArr zeroArr zeroArr x y z).1
        + cylSin x y * (gather_field_cubic_body invdz zmin Nz invdr rmin Nr
          (fun _ _ => c) zeroArr zeroArr zeroArr zeroArr zeroArr
          zeroArr zeroArr zeroArr zeroArr zeroArr zeroArr x y z).2.1
      = c.re) ∧
    (gather_field_cubic_body invdz zmin Nz invdr rmin Nr
        zeroArr zeroArr (fun _ _ => c) zeroArr zeroArr zeroArr
        zeroArr zeroArr zeroArr zeroArr zeroArr zeroArr x y z
      = (0, 0, c.re, 0, 0, 0)) ∧
    (gather_field_linear_body invdz zmin Nz invdr rmin Nr
        (fun _ _ => c) zeroArr zeroArr zeroArr zeroArr zeroArr
        zeroArr zeroArr zeroArr zeroArr zeroArr zeroArr 0 0 z
      = (c.re, 0, 0, 0, 0, 0)) ∧
    (gather_field_cubic_body invdz zmin Nz invdr rmin Nr
        (fun _ _ => c) zeroArr zeroArr zeroArr zeroArr zeroArr
        zeroArr zeroArr zeroArr zeroArr zeroArr zeroArr 0 0 z
      = (c.re, 0, 0, 0, 0, 0)) := by
  refine ⟨lin_body_uniform_Er0 _ _ _ _ _ _ c x y z, ?_,
    lin_body_uniform_Ez0 _ _ _ _ _ _ c x y z,
    cub_body_uniform_Er0 _ _ _ _ _ _ c x y z, ?_,
    cub_body_uniform_Ez0 _ _ _ _ _ _ c x y z, ?_, ?_⟩
  · rw [lin_body_uniform_Er0]
    dsimp only
    linear_combination c.re * cyl_sq_sum x y
  · rw [cub_body_uniform_Er0]
    dsimp only
    linear_combination c.re * cyl_sq_sum x y
  · rw [lin_body_uniform_Er0, cylCos_zero, cylSin_zero]
    norm_num
  · rw [cub_body_uniform_Er0, cylCos_zero, cylSin_zero]
    norm_num


/-! Claim C2: mode-array pairing of the envelope kernels. -/

theorem range_of_getD_id (m_t : List ℕ)
    (hm : ∀ it, it < m_t.length → m_t.getD it 0 = it) :
    m_t = List.range m_t.length := by
  apply List.ext_getElem (by simp)
  intro i h1 h2
  have h3 := hm i h1
  rw [List.getD_eq_getElem m_t 0 h1] at h3
  simpa using h3

theorem cubic_envelope_fold_positional (E : ℂ)
    (a_t gr_t gt_t gz_t dta_t : List (ℤ → ℤ → ℂ)) (m_t : List ℕ)
    (irl izl : ℤ) (Sr Sz : Fin 4 → ℝ) (Nr Nz : ℤ) (init : ℂ × ℂ × ℂ × ℂ × ℂ)
    (hm : ∀ it, it < m_t.length → m_t.getD it 0 = it) :
    m_t.foldl (fun acc m =>
        add_cubic_envelope_gather_for_mode m
          acc.1 acc.2.1 acc.2.2.1 acc.2.2.2.1 acc.2.2.2.2 (E ^ m)
          (a_t.getD m zeroArr) (gr_t.getD m zeroArr) (gt_t.getD m zeroArr)
          (gz_t.getD m zeroArr) (dta_t.getD m zeroArr)
          irl izl Sr Sz Nr Nz) init
      = (List.range m_t.length).foldl (fun acc it =>
          add_cubic_envelope_gather_for_mode (m_t.getD it 0)
            acc.1 acc.2.1 acc.2.2.1 acc.2.2.2.1 acc.2.2.2.2
            (E ^ (m_t.getD it 0))
            (a_t.getD it zeroArr) (gr_t.getD it zeroArr)
            (gt_t.getD it zeroArr) (gz_t.getD it zeroArr)
            (dta_t.getD it zeroArr)
            irl izl Sr Sz Nr Nz) init := by
  conv_lhs => rw [range_of_getD_id m_t hm]
  apply List.foldl_ext
  intro acc it hit
  rw [List.mem_range] at hit
  rw [hm it hit]

/-- C2 (amended): the linear envelope kernel pairs modes with grid arrays
by tuple position, as the claim states, for an arbitrary ordered mode
tuple; the cubic envelope kernel instead indexes the field tuples by the
mode value itself (`a_tuple[m]`, threading_methods.py line 628), so it
agrees with positional pairing exactly when `m_tuple[it] = it` for every
position — in particular for the standard ordering `(0, 1, ..., Nm-1)` —
but not for an arbitrary ordered mode list. -/
theorem envelope_mode_pairing
    (invdz zmin : ℝ) (Nz : ℤ) (invdr rmin : ℝ) (Nr : ℤ) (dt : ℝ)
    (a_t gr_t gt_t gz_t dta_t : List (ℤ → ℤ → ℂ)) (m_t : List ℕ)
    (x y z : ℝ) (prev : ℝ × ℝ × ℝ × ℝ × ℝ) (averaging : Bool)
    (hm : ∀ it, it < m_t.length → m_t.getD it 0 = it) :
    gather_envelope_field_linear_body invdz zmin Nz invdr rmin Nr dt
        a_t gr_t gt_t gz_t dta_t m_t x y z prev averaging
      = gather_envelope_field_linear_body_positional invdz zmin Nz invdr
          rmin Nr dt a_t gr_t gt_t gz_t dta_t m_t x y z prev averaging ∧
    gather_envelope_field_cubic_body invdz zmin Nz invdr rmin Nr dt
        a_t gr_t gt_t gz_t dta_t m_t x y z prev averaging
      = gather_envelope_field_cubic_body_positional invdz zmin Nz invdr
          rmin Nr dt a_t gr_t gt_t gz_t dta_t m_t x y z prev averaging := by
  constructor
  · rfl
  · simp only [gather_envelope_field_cubic_body,
      gather_envelope_field_cubic_body_positional]
    rw [cubic_envelope_fold_positional (exptheta x y)
      a_t gr_t gt_t gz_t dta_t m_t _ _ _ _ _ _ _ hm]

/-- Witness for (the amended) C2 with the standard mode tuple `(0, 1)`. -/
theorem envelope_mode_pairing_witness :
    gather_envelope_field_linear_body 1 0 4 1 0 4 1
        [zeroArr, zeroArr] [zeroArr, zeroArr] [zeroArr, zeroArr]
        [zeroArr, zeroArr] [zeroArr, zeroArr] [0, 1] 0 0 0
        (0, 0, 0, 0, 0) false
      = gather_envelope_field_linear_body_positional 1 0 4 1 0 4 1
          [zeroArr, zeroArr] [zeroArr, zeroArr] [zeroArr, zeroArr]
          [zeroArr, zeroArr] [zeroArr, zeroArr] [0, 1] 0 0 0
          (0, 0, 0, 0, 0) false ∧
    gather_envelope_field_cubic_body 1 0 4 1 0 4 1
        [zeroArr, zeroArr] [zeroArr, zeroArr] [zeroArr, zeroArr]
        [zeroArr, zeroArr] [zeroArr, zeroArr] [0, 1] 0 0 0
        (0, 0, 0, 0, 0) false
      = gather_envelope_field_cubic_body_positional 1 0 4 1 0 4 1
          [zeroArr, zeroArr] [zeroArr, zeroArr] [zeroArr, zeroArr]
          [zeroArr, zeroArr] [zeroArr, zeroArr] [0, 1] 0 0 0
          (0, 0, 0, 0, 0) false :=
  envelope_mode_pairing 1 0 4 1 0 4 1
    [zeroArr, zeroArr] [zeroArr, zeroArr] [zeroArr, zeroArr]
    [zeroArr, zeroArr] [zeroArr, zeroArr] [0, 1] 0 0 0
    (0, 0, 0, 0, 0) false
    (by decide)


theorem envelope_write_fst (F Fr Ft Fz dtF : ℂ) (cos sin dt : ℝ)
    (prev : ℝ × ℝ × ℝ × ℝ × ℝ) :
    (envelope_write F Fr Ft Fz dtF cos sin dt prev false).1
      = (F * star F).re := by
  simp [envelope_write]

/-- C2 counterexample: with the mode tuple `(1, 0)` (a reordered but valid
ordered mode list), field tuples `(1, i)` uniform, all other arrays zero,
and a particle at `x = 0, y = 1` (phase `exp(-i*theta) = -i`), the cubic
envelope kernel accumulates `a_tuple[1]*(-i)^1 + a_tuple[0]*(-i)^0 = 2`
(squared intensity 4), while the positional pairing the claim describes
gives `a_tuple[0]*(-i)^1 + a_tuple[1]*(-i)^0 = 0` (intensity 0): the claim
that both kernels pair mode and arrays by tuple position is false. -/
theorem envelope_cubic_mode_pairing_counterexample :
    gather_envelope_field_cubic_body 1 0 8 1 0 8 0
        [fun _ _ => 1, fun _ _ => Complex.I]
        [zeroArr, zeroArr] [zeroArr, zeroArr] [zeroArr, zeroArr]
        [zeroArr, zeroArr] [1, 0] 0 1 2 (0, 0, 0, 0, 0) false
      ≠ gather_envelope_field_cubic_body_positional 1 0 8 1 0 8 0
        [fun _ _ => 1, fun _ _ => Complex.I]
        [zeroArr, zeroArr] [zeroArr, zeroArr] [zeroArr, zeroArr]
        [zeroArr, zeroArr] [1, 0] 0 1 2 (0, 0, 0, 0, 0) false := by
  have hE : exptheta 0 1 = -Complex.I := by
    have hr : cylR 0 1 = 1 := by
      rw [cylR]
      norm_num
    simp [exptheta, cylCos, cylSin, hr]
  have hL : (gather_envelope_field_cubic_body 1 0 8 1 0 8 0
      [fun _ _ => 1, fun _ _ => Complex.I]
      [zeroArr, zeroArr] [zeroArr, zeroArr] [zeroArr, zeroArr]
      [zeroArr, zeroArr] [1, 0] 0 1 2 (0, 0, 0, 0, 0) false).1 = 4 := by
    simp only [gather_envelope_field_cubic_body, List.foldl_cons,
      List.foldl_nil, List.getD_cons_zero, List.getD_cons_succ,
      add_cubic_envelope_gather_for_mode, cubic_gather_sum_zeroArr,
      cubic_gather_sum_const, add_zero, zero_add, pow_zero, pow_one, hE,
      cubicW_sum, envelope_write_fst]
    norm_num [Complex.ext_iff, Complex.mul_re, Complex.mul_im]
  have hR : (gather_envelope_field_cubic_body_positional 1 0 8 1 0 8 0
      [fun _ _ => 1, fun _ _ => Complex.I]
      [zeroArr, zeroArr] [zeroArr, zeroArr] [zeroArr, zeroArr]
      [zeroArr, zeroArr] [1, 0] 0 1 2 (0, 0, 0, 0, 0) false).1 = 0 := by
    simp only [gather_envelope_field_cubic_body_positional, List.length_cons,
      List.length_nil, List.range_succ, List.range_zero, List.foldl_cons,
      List.foldl_nil, List.nil_append, List.cons_append,
      List.getD_cons_zero, List.getD_cons_succ,
      add_cubic_envelope_gather_for_mode, cubic_gather_sum_zeroArr,
      cubic_gather_sum_const, add_zero, zero_add, pow_zero, pow_one, hE,
      cubicW_sum, envelope_write_fst]
    norm_num [Complex.ext_iff, Complex.mul_re, Complex.mul_im]
  intro h
  rw [h, hR] at hL
  norm_num at hL

/-! Claim C3: the envelope output policy. -/

/-- C3: the envelope kernels' output policy at a failing input.  With one
mode, `dta` uniformly `1`, everything else zero, `dt = 2` and a particle at
the origin, the newly gathered values are `I = 0` and (as the
`averaging = false` branch shows) `Id = |0.5*dt*dtF + F|^2 = 1`.  With
`averaging = true` and previous values `0`, the claim says `a2_delayed`
becomes the mean of its previous value and its own newly computed value
`Id`, i.e. `1/2`; the code instead blends it with the plain intensity `I`
(threading_methods.py line 356 uses `F`, and the computed `dtF` is unused
in that branch) and writes `0`. -/
theorem envelope_averaging_delayed_uses_intensity :
    (gather_envelope_field_linear_body 1 0 4 1 0 4 2
        [zeroArr] [zeroArr] [zeroArr] [zeroArr] [fun _ _ => 1] [0]
        0 0 0 (0, 0, 0, 0, 0) true).2.2.2.2 = 0 ∧
    (gather_envelope_field_linear_body 1 0 4 1 0 4 2
        [zeroArr] [zeroArr] [zeroArr] [zeroArr] [fun _ _ => 1] [0]
        0 0 0 (0, 0, 0, 0, 0) false).2.2.2.2 = 1 ∧
    (0 : ℝ) ≠ 1 / 2 := by
  have htot := linShape_weight_total 1 0 4 1 0 4 (cylR 0 0) 0
  refine ⟨?_, ?_, by norm_num⟩ <;>
  · simp only [gather_envelope_field_linear_body, List.length_cons,
      List.length_nil, List.range_succ, List.range_zero, List.nil_append,
      List.foldl_cons, List.foldl_nil, List.getD_cons_zero,
      add_linear_envelope_gather_for_mode, lin_gather_sum_zeroArr,
      lin_gather_sum_const, add_zero, zero_add, pow_zero, htot]
    norm_num [envelope_write, Complex.ext_iff]

end Fbpic
